import Mathlib

/-!
Verification of the paperback-extensions repository (Kaynscan and Mangabuddy
source adapters) against its natural-language specification.

The TypeScript sources are shallowly embedded:
* JS strings are modelled as `List Char` (`JStr`); absent DOM attributes are
  `Option JStr` when the code distinguishes absence, otherwise the code's own
  `|| ""` default is baked in as the empty list.
* A fetched, parsed document is modelled by the results of the exact CSS
  queries the source performs on it (the HTML parsing library is an external
  collaborator).
* JS `Date` values are a linear millisecond timeline (`Int`, UTC, no DST);
  parsing of free-form absolute date strings (`new Date(text)`) is an
  environment capability and is passed in as a `JStr → Option Int` parameter
  (`none` models an Invalid Date / NaN result).
* The regular expressions used by the sources are implemented as executable
  scanners over `List Char` with the same first-match / greediness behaviour.
* `Array.prototype.sort` (stable since ES2019) with comparator
  `(a, b) => b.chapNum - a.chapNum` is modelled by a stable insertion sort.
-/

/-- A JavaScript string, modelled as its list of characters. -/
abbrev JStr := List Char

/-- Coerce a Lean string literal to the `JStr` model. -/
def jstr (s : String) : JStr := s.data

/-- JS `String.prototype.startsWith`. -/
def jsStartsWith (s pre : JStr) : Bool := s.take pre.length == pre

/-- JS `String.prototype.includes` (substring search). -/
def jsIncludes : JStr → JStr → Bool
  | [], sub => sub.isEmpty
  | s@(_ :: rest), sub => jsStartsWith s sub || jsIncludes rest sub

/-- JS `String.prototype.trim`.  `Char.isWhitespace` approximates the JS
whitespace class `\s` (all inputs exercised here are ASCII). -/
def jsTrim (s : JStr) : JStr :=
  ((s.dropWhile Char.isWhitespace).reverse.dropWhile Char.isWhitespace).reverse

/-- JS `String.prototype.toLowerCase` (ASCII). -/
def jsToLower (s : JStr) : JStr := s.map Char.toLower

/-- The double-quote character. -/
def quoteChar : Char := Char.ofNat 34

/-- The single-quote character. -/
def squoteChar : Char := Char.ofNat 39

/-- `image.replace(/['"]/g, "")` — strip all quote characters. -/
def stripQuotes (s : JStr) : JStr :=
  s.filter (fun c => !(c == quoteChar || c == squoteChar))

/-- Numeric value of a nonempty run of decimal digits (JS `parseInt` on a
`\d+` capture). -/
def parseNatDigits (d : JStr) : Nat :=
  d.foldl (fun n c => 10 * n + (c.toNat - 48)) 0

/-- JS `parseInt(s)` on a free-form string: skip leading whitespace, parse
an optional sign and a leading digit run; `none` models `NaN`. -/
def jsParseInt (s : JStr) : Option Int :=
  let t := s.dropWhile Char.isWhitespace
  let core : JStr → Option Nat := fun r =>
    let d := r.takeWhile Char.isDigit
    if d.isEmpty then none else some (parseNatDigits d)
  match t with
  | '-' :: r => (core r).map (fun n => -(n : Int))
  | '+' :: r => (core r).map (fun n => (n : Int))
  | _ => (core t).map (fun n => (n : Int))

/-- A nonnegative JS number value `mant / 10 ^ scale`, as produced by
`Number(s)` on a string matching `\d+(\.\d+)?`.  Kept canonical
(`scale = 0` or `¬ 10 ∣ mant`), so that structural equality coincides with
JS value equality (`Number("12.50") === Number("12.5")`). -/
structure JNum where
  mant : Nat
  scale : Nat
deriving DecidableEq, Repr

/-- The JS number `0`. -/
def JNum.zero : JNum := ⟨0, 0⟩

/-- Value order on `JNum` by cross multiplication. -/
def JNum.le (a b : JNum) : Prop := a.mant * 10 ^ b.scale ≤ b.mant * 10 ^ a.scale

/-- Strict value order on `JNum`. -/
def JNum.lt (a b : JNum) : Prop := a.mant * 10 ^ b.scale < b.mant * 10 ^ a.scale

instance (a b : JNum) : Decidable (JNum.le a b) := by unfold JNum.le; infer_instance

instance (a b : JNum) : Decidable (JNum.lt a b) := by unfold JNum.lt; infer_instance

/-- Strip factors of 10 from the mantissa into the scale (canonical form). -/
def canonJNum : Nat → Nat → JNum
  | m, 0 => ⟨m, 0⟩
  | m, s + 1 => if m % 10 = 0 then canonJNum (m / 10) s else ⟨m, s + 1⟩

/-- JS `Number(s)` for a string `s` that matched `\d+(\.\d+)?`. -/
def parseDecimal (s : JStr) : JNum :=
  let ip := s.takeWhile Char.isDigit
  let r := s.dropWhile Char.isDigit
  match r with
  | [] => ⟨parseNatDigits ip, 0⟩
  | _ :: f => canonJNum (parseNatDigits ip * 10 ^ f.length + parseNatDigits f) f.length

/-- Decimal rendering of a natural number (JS number → string for integers). -/
def renderNat (n : Nat) : JStr := Nat.toDigits 10 n

/-- JS number → string for the nonnegative decimal values arising here
(template literal interpolation of a chapter number). -/
def renderJNum (n : JNum) : JStr :=
  if n.scale = 0 then renderNat n.mant
  else
    let ds := renderNat n.mant
    let padded := List.replicate (n.scale + 1 - ds.length) '0' ++ ds
    padded.take (padded.length - n.scale) ++ '.' :: padded.drop (padded.length - n.scale)

/-- `genre.replace(/\s+/g, "-")`: collapse each whitespace run to one dash.
`fuel` is the string length. -/
def collapseWsAux : Nat → JStr → JStr
  | 0, _ => []
  | _, [] => []
  | fuel + 1, c :: r =>
    if c.isWhitespace then '-' :: collapseWsAux fuel (r.dropWhile Char.isWhitespace)
    else c :: collapseWsAux fuel r

/-- `s.replace(/\s+/g, "-")`. -/
def collapseWs (s : JStr) : JStr := collapseWsAux s.length s

/-! ### Regex scanners

Each regex in the sources is compiled by hand into a position matcher
(`Option`-returning parser on the remaining input) that is attempted at every
start position, left to right (`scanFirst`), exactly as an unanchored regex
engine does. -/

/-- Match a literal, case-sensitively; return the rest. -/
def pLit : JStr → JStr → Option JStr
  | [], l => some l
  | _ :: _, [] => none
  | p :: ps, c :: cs => if c == p then pLit ps cs else none

/-- Match a literal given in lowercase, case-insensitively; return the rest. -/
def pLitCI : JStr → JStr → Option JStr
  | [], l => some l
  | _ :: _, [] => none
  | p :: ps, c :: cs => if c.toLower == p then pLitCI ps cs else none

/-- `\d+`: one or more digits (greedy), returning the digits and the rest. -/
def pDigits1 (l : JStr) : Option (JStr × JStr) :=
  let d := l.takeWhile Char.isDigit
  if d.isEmpty then none else some (d, l.dropWhile Char.isDigit)

/-- `\s+`: one or more whitespace characters. -/
def pWs1 (l : JStr) : Option JStr :=
  let w := l.takeWhile Char.isWhitespace
  if w.isEmpty then none else some (l.dropWhile Char.isWhitespace)

/-- `\s*`. -/
def pWs0 (l : JStr) : JStr := l.dropWhile Char.isWhitespace

/-- `\d+(?:\.\d+)?`: a decimal number capture (greedy, with the optional
fraction kept only when at least one digit follows the dot). -/
def pNumber (l : JStr) : Option (JStr × JStr) :=
  match pDigits1 l with
  | none => none
  | some (d, r) =>
    match r with
    | '.' :: r2 =>
      match pDigits1 r2 with
      | some (f, r3) => some (d ++ '.' :: f, r3)
      | none => some (d, r)
    | _ => some (d, r)

/-- Try a position matcher at every start position, left to right. -/
def scanFirst (f : JStr → Option α) : JStr → Option α
  | [] => f []
  | l@(_ :: rest) =>
    match f l with
    | some a => some a
    | none => scanFirst f rest

/-- `/\/series\/([^/?]+)/` (Kaynscan discover and search). -/
def seriesIdMatch (href : JStr) : Option JStr :=
  scanFirst (fun l =>
    match pLit (jstr "/series/") l with
    | none => none
    | some r =>
      let m := r.takeWhile (fun c => !(c == '/' || c == '?'))
      if m.isEmpty then none else some m) href

/-- `/\/chapter\/([^/]+)/` (Kaynscan chapter ids, `main.ts` 379). -/
def chapterSlashIdMatch (href : JStr) : Option JStr :=
  scanFirst (fun l =>
    match pLit (jstr "/chapter/") l with
    | none => none
    | some r =>
      let m := r.takeWhile (fun c => !(c == '/'))
      if m.isEmpty then none else some m) href

/-- `/url\(([^)]+)\)/` (Kaynscan background-image extraction). -/
def urlParenMatch (style : JStr) : Option JStr :=
  scanFirst (fun l =>
    match pLit (jstr "url(") l with
    | none => none
    | some r =>
      let m := r.takeWhile (fun c => !(c == ')'))
      match r.dropWhile (fun c => !(c == ')')) with
      | ')' :: _ => if m.isEmpty then none else some m
      | _ => none) style

/-- `/background-image:\s*url\(([^)]+)\)/` (Kaynscan manga-detail method 2). -/
def bgUrlMatch (style : JStr) : Option JStr :=
  scanFirst (fun l =>
    match pLit (jstr "background-image:") l with
    | none => none
    | some r =>
      match pLit (jstr "url(") (pWs0 r) with
      | none => none
      | some r2 =>
        let m := r2.takeWhile (fun c => !(c == ')'))
        match r2.dropWhile (fun c => !(c == ')')) with
        | ')' :: _ => if m.isEmpty then none else some m
        | _ => none) style

/-- The photoURL CSS-variable regex of Kaynscan manga-detail method 1
(a literal "--photoURL:url(" followed by a nonempty `[^)]+` capture and ")"). -/
def photoUrlMatch (style : JStr) : Option JStr :=
  scanFirst (fun l =>
    match pLit (jstr "--photoURL:url(") l with
    | none => none
    | some r =>
      let m := r.takeWhile (fun c => !(c == ')'))
      match r.dropWhile (fun c => !(c == ')')) with
      | ')' :: _ => if m.isEmpty then none else some m
      | _ => none) style

/-- `/\/chapter-(\d+(?:\.\d+)?)/i` (Mangabuddy and part_003 chapter lists). -/
def chapterDashMatch (url : JStr) : Option JStr :=
  scanFirst (fun l =>
    match pLitCI (jstr "/chapter-") l with
    | none => none
    | some r => (pNumber r).map Prod.fst) url

/-- `/\/(\d+(?:\.\d+)?)$/` (part_003 chapter lists, second alternative):
a slash followed by a number that ends the string. -/
def endNumMatch (url : JStr) : Option JStr :=
  scanFirst (fun l =>
    match l with
    | '/' :: r =>
      match pNumber r with
      | some (cap, []) => some cap
      | _ => none
    | _ => none) url

/-- `/Chapter (\d+)/i` (latest-chapter subtitles; note the literal space). -/
def chapterSpaceNumMatch (text : JStr) : Option JStr :=
  scanFirst (fun l =>
    match pLitCI (jstr "chapter ") l with
    | none => none
    | some r => (pDigits1 r).map Prod.fst) text

/-- `/Chapter\s+(\d+(?:\.\d+)?)/i` (Kaynscan chapter titles). -/
def chapterWsNumMatch (text : JStr) : Option JStr :=
  scanFirst (fun l =>
    match pLitCI (jstr "chapter") l with
    | none => none
    | some r =>
      match pWs1 r with
      | none => none
      | some r2 => (pNumber r2).map Prod.fst) text

/-- The unit tail of the relative-time regex: one unit alternative followed
by an optional `s`, whitespace, and `ago` (case-insensitive); yields the
unit's millisecond value. -/
def relUnitMatch (u : JStr × Int) (r2 : JStr) : Option Int :=
  match pLitCI u.1 r2 with
  | none => none
  | some r3 =>
    let r4 := match r3 with
      | c :: r4' => if c.toLower == 's' then r4' else r3
      | [] => r3
    match pWs1 r4 with
    | none => none
    | some r5 =>
      match pLitCI (jstr "ago") r5 with
      | none => none
      | some _ => some u.2

/-- The relative-time regex attempted at one position: digits, whitespace,
then the first matching unit alternative. -/
def relAtPos (units : List (JStr × Int)) (l : JStr) : Option (Nat × Int) :=
  match pDigits1 l with
  | none => none
  | some (d, r) =>
    match pWs1 r with
    | none => none
    | some r2 =>
      ((units.filterMap (fun u => relUnitMatch u r2)).head?).map
        (fun ms => (parseNatDigits d, ms))

/-- `/(\d+)\s+(second|minute|hour|...)s?\s+ago/i`, parameterised by the unit
alternatives (given lowercase, paired with their millisecond value).  Returns
`parseInt` of the first capture and the matched unit's milliseconds. -/
def relTimeMatch (units : List (JStr × Int)) (text : JStr) : Option (Nat × Int) :=
  scanFirst (relAtPos units) text

/-- `/images\s*=\s*\[(.*?)\]/s` (Kaynscan script fallback): the text between
the bracket and the first following `]`. -/
def imagesArrayMatch (script : JStr) : Option JStr :=
  scanFirst (fun l =>
    match pLit (jstr "images") l with
    | none => none
    | some r =>
      match pLit (jstr "=") (pWs0 r) with
      | none => none
      | some r2 =>
        match pLit (jstr "[") (pWs0 r2) with
        | none => none
        | some r3 =>
          let m := r3.takeWhile (fun c => !(c == ']'))
          match r3.dropWhile (fun c => !(c == ']')) with
          | ']' :: _ => some m
          | _ => none) script

/-- `/"([^"]+)"/g` via `String.prototype.match`: all non-overlapping quoted
substrings (the fuel is the input length, which bounds the recursion). -/
def quotedMatchesAux : Nat → JStr → List JStr
  | 0, _ => []
  | _, [] => []
  | fuel + 1, c :: rest =>
    if c == quoteChar then
      let m := rest.takeWhile (fun x => !(x == quoteChar))
      match rest.dropWhile (fun x => !(x == quoteChar)) with
      | _ :: r2 =>
        if m.isEmpty then quotedMatchesAux fuel rest
        else m :: quotedMatchesAux fuel r2
      | [] => quotedMatchesAux fuel rest
    else quotedMatchesAux fuel rest

/-- All matches of `/"([^"]+)"/g`, as their inner text. -/
def quotedMatches (s : JStr) : List JStr := quotedMatchesAux s.length s

/-- `/var\s+chapImages\s*=\s*'([^']+)'/` (Mangabuddy chapter pages). -/
def chapImagesMatch (script : JStr) : Option JStr :=
  scanFirst (fun l =>
    match pLit (jstr "var") l with
    | none => none
    | some r =>
      match pWs1 r with
      | none => none
      | some r2 =>
        match pLit (jstr "chapImages") r2 with
        | none => none
        | some r3 =>
          match pLit (jstr "=") (pWs0 r3) with
          | none => none
          | some r4 =>
            match r4.dropWhile Char.isWhitespace with
            | q :: r5 =>
              if q == squoteChar then
                let m := r5.takeWhile (fun x => !(x == squoteChar))
                match r5.dropWhile (fun x => !(x == squoteChar)) with
                | _ :: _ => if m.isEmpty then none else some m
                | [] => none
              else none
            | [] => none) script

/-! ### Stable descending sort

`chapters.sort((a, b) => b.chapNum - a.chapNum)` — `Array.prototype.sort` is
stable (ES2019), so the result is ordered by descending key with equal keys
keeping their original order.  Modelled as a stable insertion sort: `foldr`
inserts earlier elements later, and an element is placed in front of the
first element whose key is not larger, which preserves the original order of
equal keys. -/

/-- Insert `a` in front of the first element with key not above `key a`. -/
def insertDesc (key : α → JNum) (a : α) : List α → List α
  | [] => [a]
  | b :: bs => if JNum.le (key b) (key a) then a :: b :: bs else b :: insertDesc key a bs

/-- Stable sort by descending `key`. -/
def sortDesc (key : α → JNum) (l : List α) : List α := l.foldr (insertDesc key) []

/-! ### Common record and cursor types -/

/-- The pagination metadata threaded through discovery sections
(`{ page?: number; collectedIds?: string[] }`; both fields optional, matching
the `metadata?.page ?? 1` / `metadata?.collectedIds ?? []` defaults). -/
structure PageMeta where
  page : Option Nat
  collectedIds : Option (List JStr)
deriving DecidableEq, Repr

/-- Search metadata (`{ page?: number }`). -/
structure SearchMeta where
  page : Option Nat
deriving DecidableEq, Repr

/-- `metadata?.page ?? 1`. -/
def metaPage (md : Option PageMeta) : Nat := (md.bind (·.page)).getD 1

/-- `metadata?.collectedIds ?? []`. -/
def metaIds (md : Option PageMeta) : List JStr := (md.bind (·.collectedIds)).getD []

/-- `metadata?.page ?? 1` for search calls. -/
def searchPage (md : Option SearchMeta) : Nat := (md.bind (·.page)).getD 1

/-- A discover-section item (the union of the carousel item shapes used by
both extensions; fields absent for a shape are `none`). -/
structure DiscItem where
  typ : JStr
  mangaId : JStr
  imageUrl : JStr
  title : JStr
  subtitle : Option JStr
  supertitle : Option JStr
  chapterId : Option JStr
deriving DecidableEq, Repr

/-- A search result item. -/
structure SearchItem where
  mangaId : JStr
  imageUrl : JStr
  title : JStr
  subtitle : Option JStr
deriving DecidableEq, Repr

/-- `PagedResults<DiscoverSectionItem>`. -/
structure PagedDisc where
  items : List DiscItem
  metadata : Option PageMeta
deriving DecidableEq, Repr

/-- `PagedResults<SearchResultItem>` (search cursors carry only the page). -/
structure PagedSearch where
  items : List SearchItem
  metadata : Option SearchMeta
deriving DecidableEq, Repr

/-- `ChapterDetails` (the record returned by `getChapterDetails`). -/
structure ChapterDetailsRec where
  mangaId : JStr
  id : JStr
  pages : List JStr
deriving DecidableEq, Repr

/-- The Cloudflare bot-challenge error thrown by `checkCloudflareStatus`. -/
structure CFError where
  url : JStr
  method : JStr
deriving DecidableEq, Repr

instance [DecidableEq ε] [DecidableEq α] : DecidableEq (Except ε α) := fun x y =>
  match x, y with
  | .ok a, .ok b =>
    if h : a = b then isTrue (by rw [h])
    else isFalse (by intro hh; cases hh; exact h rfl)
  | .error a, .error b =>
    if h : a = b then isTrue (by rw [h])
    else isFalse (by intro hh; cases hh; exact h rfl)
  | .ok _, .error _ => isFalse (by intro h; cases h)
  | .error _, .ok _ => isFalse (by intro h; cases h)

/-! ### Kaynscan (`src/Kaynscan/main.ts`) -/

/-- `const baseUrl = "https://kaynscan.com"`. -/
def kaynBase : JStr := jstr "https://kaynscan.com"

/-- `ensureHttps` (Kaynscan `main.ts` lines 35-40).  The JS
`url.replace("http://", "https://")` replaces the first occurrence, which by
the `startsWith` guard is the prefix. -/
def ensureHttps (url : JStr) : JStr :=
  if jsStartsWith url (jstr "http://") then jstr "https://" ++ url.drop 7 else url

/-- `checkCloudflareStatus` + `fetchCheerio` (Kaynscan `main.ts` 78-83,
559-565): a 503/403 response status throws `CloudflareError`, any other
status yields the parsed document. -/
def kaynFetchCheerio (status : Nat) (doc : α) : Except CFError α :=
  if status = 503 ∨ status = 403 then .error ⟨jstr "https://kaynscan.com", jstr "GET"⟩
  else .ok doc

/-- One anchor matched by the Kaynscan discover/search query
`$("a[href*='/series/']")`: its `href`, `title` and `alt` attributes
(with the code's `|| ""` defaults) and the `style` attribute of its first
`div[style*='background-image']` descendant (empty when none). -/
structure KaynAnchor where
  href : JStr
  titleAttr : JStr
  altAttr : JStr
  styleAttr : JStr
deriving DecidableEq, Repr

/-- A Kaynscan listing document: the matched anchors plus the number of
elements matching `.pagination .next, .next-page, a[rel='next']`. -/
structure KaynDoc where
  anchors : List KaynAnchor
  nextPageCount : Nat
deriving DecidableEq, Repr

/-- `link.attr("title") || link.attr("alt") || ""`. -/
def kaynAnchorTitle (a : KaynAnchor) : JStr :=
  if a.titleAttr = [] then a.altAttr else a.titleAttr

/-- The manga id extracted from an anchor's href (empty when no match). -/
def kaynAnchorId (a : KaynAnchor) : JStr := (seriesIdMatch a.href).getD []

/-- Background image extracted from the style attribute, quotes stripped. -/
def kaynAnchorImage (a : KaynAnchor) : JStr :=
  stripQuotes ((urlParenMatch a.styleAttr).getD [])

/-- `ensureHttps(image.startsWith("http") ? image : baseUrl + image)`. -/
def kaynImageUrl (image : JStr) : JStr :=
  ensureHttps (if jsStartsWith image (jstr "http") then image else kaynBase ++ image)

/-- One step of the Kaynscan discover item loop (`main.ts` 124-173): the
validity guards, the seen-set check, and the push of both the id and the
built item. -/
def kaynDiscoverStep (sectionId : JStr) (st : List JStr × List DiscItem)
    (a : KaynAnchor) : List JStr × List DiscItem :=
  let mangaId := kaynAnchorId a
  let title := kaynAnchorTitle a
  if mangaId = [] ∨ title = [] then st
  else if mangaId.contains '?' ∨ mangaId.contains ' ' ∨ mangaId.length < 3 then st
  else if mangaId ∈ st.1 then st
  else
    let item : DiscItem :=
      if sectionId = jstr "popular" then
        ⟨jstr "featuredCarouselItem", mangaId, kaynImageUrl (kaynAnchorImage a),
          title, none, none, none⟩
      else
        ⟨jstr "chapterUpdatesCarouselItem", mangaId, kaynImageUrl (kaynAnchorImage a),
          title, none, none, some (jstr "1")⟩
    (st.1 ++ [mangaId], st.2 ++ [item])

/-- Run the discover item loop over a document's anchors. -/
def kaynExtract (sectionId : JStr) (ids0 : List JStr) (doc : KaynDoc) :
    List JStr × List DiscItem :=
  doc.anchors.foldl (kaynDiscoverStep sectionId) (ids0, [])

/-- The URL fetched by `getDiscoverSectionItems` (`main.ts` 111-117): the
base URL unless the section id is `popular` or `latest`. -/
def kaynDiscoverUrl (sectionId : JStr) (page : Nat) : JStr :=
  if sectionId = jstr "popular" then
    kaynBase ++ jstr "/series?page=" ++ renderNat page ++ jstr "&order=popular"
  else if sectionId = jstr "latest" then
    kaynBase ++ jstr "/series?page=" ++ renderNat page ++ jstr "&order=update"
  else kaynBase

/-- `getDiscoverSectionItems` (Kaynscan `main.ts` 104-182).  `fetch` is the
document-fetching collaborator (URL ↦ parsed document). -/
def kaynGetDiscoverSectionItems (sectionId : JStr) (metadata : Option PageMeta)
    (fetch : JStr → KaynDoc) : PagedDisc :=
  let page := metaPage metadata
  let collectedIds := metaIds metadata
  let doc := fetch (kaynDiscoverUrl sectionId page)
  let st := kaynExtract sectionId collectedIds doc
  { items := st.2
    metadata := if 0 < doc.nextPageCount then some ⟨some (page + 1), some st.1⟩ else none }

/-- One step of the Kaynscan search item loop (`main.ts` 196-226): the same
guards as discover, but no seen-set and no id collection. -/
def kaynSearchStep (st : List SearchItem) (a : KaynAnchor) : List SearchItem :=
  let mangaId := kaynAnchorId a
  let title := kaynAnchorTitle a
  if mangaId = [] ∨ title = [] then st
  else if mangaId.contains '?' ∨ mangaId.contains ' ' ∨ mangaId.length < 3 then st
  else st ++ [⟨mangaId, kaynImageUrl (kaynAnchorImage a), title, none⟩]

/-- `getSearchResults` (Kaynscan `main.ts` 184-235), given the fetched
document (the search-URL construction does not affect any claim). -/
def kaynGetSearchResults (metadata : Option SearchMeta) (doc : KaynDoc) : PagedSearch :=
  let page := searchPage metadata
  { items := doc.anchors.foldl kaynSearchStep []
    metadata := if 0 < doc.nextPageCount then some ⟨some (page + 1)⟩ else none }

/-- The inputs to the thumbnail computation of Kaynscan `getMangaDetails`
(`main.ts` 246-276): the style attribute of the first photoURL cover div,
the style attributes of all `div[style*='background-image']` elements, and
the `src` of the first `img[src*='cdn.meowing'], img[src*='wsrv.nl']`. -/
structure KaynDetailDoc where
  coverStyle : JStr
  bgStyles : List JStr
  cdnImgSrc : Option JStr
deriving DecidableEq, Repr

/-- The three-method cover image extraction of Kaynscan `getMangaDetails`. -/
def kaynDetailImage (d : KaynDetailDoc) : JStr :=
  let m1 := (photoUrlMatch d.coverStyle).getD []
  if m1 ≠ [] then m1
  else
    let m2 := ((d.bgStyles.filterMap bgUrlMatch).head?.map stripQuotes).getD []
    if m2 ≠ [] then m2
    else match d.cdnImgSrc with
      | some src => src
      | none => []

/-- The `thumbnailUrl` returned by Kaynscan `getMangaDetails`
(`main.ts` 340-342). -/
def kaynMangaThumbnail (d : KaynDetailDoc) : JStr := kaynImageUrl (kaynDetailImage d)

/-- One `img` element of a Kaynscan chapter page, with its `src` and `uid`
attributes (`|| ""` defaults). -/
structure KImg where
  src : JStr
  uid : JStr
deriving DecidableEq, Repr

/-- A Kaynscan chapter document: the `img.myImage` matches, the broader
`img[src*='cdn.meowing'], img[uid]` matches, and the first script's html
(`|| ""`). -/
structure KaynChapterDoc where
  myImages : List KImg
  fallbackImages : List KImg
  scriptHtml : JStr
deriving DecidableEq, Repr

/-- The `imageUrl` local of tier 1 of Kaynscan `getChapterDetails`
(`main.ts` 477-494): prefer a cdn `src`, fall back to a uid-built URL. -/
def kaynTier1Url (img : KImg) : JStr :=
  let fromSrc :=
    if img.src ≠ [] ∧ jsIncludes img.src (jstr "cdn.meowing.org") then img.src else []
  if fromSrc = [] then
    (if img.uid = [] then [] else jstr "https://cdn.meowing.org/uploads/" ++ img.uid)
  else fromSrc

/-- Tier 1 of Kaynscan `getChapterDetails` (`main.ts` 477-498):
`img.myImage` elements, pushing `ensureHttps(imageUrl)` when nonempty. -/
def kaynTier1 (imgs : List KImg) : List JStr :=
  imgs.foldl (fun ps img =>
    if kaynTier1Url img = [] then ps else ps ++ [ensureHttps (kaynTier1Url img)]) []

/-- Tier 2 of Kaynscan `getChapterDetails` (`main.ts` 501-513). -/
def kaynTier2 (imgs : List KImg) : List JStr :=
  imgs.foldl (fun ps img =>
    if img.src ≠ [] ∧ jsIncludes img.src (jstr "cdn.meowing.org") then
      ps ++ [ensureHttps img.src]
    else if img.uid ≠ [] then
      ps ++ [ensureHttps (jstr "https://cdn.meowing.org/uploads/" ++ img.uid)]
    else ps) []

/-- Tier 3 of Kaynscan `getChapterDetails` (`main.ts` 516-535): a bracketed
string array scraped from the first script tag (the captured strings contain
no quotes, so the code's quote-stripping is the identity on them). -/
def kaynTier3 (script : JStr) : List JStr :=
  match imagesArrayMatch script with
  | none => []
  | some inner =>
    (quotedMatches inner).foldl (fun ps u =>
      ps ++ [ensureHttps (if jsStartsWith u (jstr "http") then u else kaynBase ++ u)]) []

/-- The pages list assembled by Kaynscan `getChapterDetails`: each later tier
runs only when the earlier tiers produced nothing. -/
def kaynChapterPagesList (doc : KaynChapterDoc) : List JStr :=
  let p1 := kaynTier1 doc.myImages
  if p1 ≠ [] then p1
  else
    let p2 := kaynTier2 doc.fallbackImages
    if p2 ≠ [] then p2
    else kaynTier3 doc.scriptHtml

/-- `getChapterDetails` (Kaynscan `main.ts` 465-553): throws when all three
tiers yield zero pages, otherwise returns the pages record. -/
def kaynGetChapterDetails (mangaId chapterId : JStr) (doc : KaynChapterDoc) :
    Except JStr ChapterDetailsRec :=
  let pages := kaynChapterPagesList doc
  if pages = [] then
    .error (jstr "No images found for this chapter. It may be locked or unavailable.")
  else .ok ⟨mangaId, chapterId, pages⟩

/-- The relative-date parsing of Kaynscan `getChapters` (`main.ts` 407-450):
units second through year (month = 30 days, year = 365 days); `publishDate`
stays undefined when the text is empty or matches no relative pattern. -/
def kaynRelUnits : List (JStr × Int) :=
  [(jstr "second", 1000), (jstr "minute", 60000), (jstr "hour", 3600000),
   (jstr "day", 86400000), (jstr "week", 604800000), (jstr "month", 2592000000),
   (jstr "year", 31536000000)]

/-- `publishDate` as computed by Kaynscan `getChapters` from the date text
(`now` is the wall clock in milliseconds). -/
def kaynParseRelDate (now : Int) (dateText : JStr) : Option Int :=
  if dateText = [] then none
  else match relTimeMatch kaynRelUnits dateText with
    | some (v, ms) => some (now - (v : Int) * ms)
    | none => none

/-- `saveCloudflareBypassCookies` both extensions share (Kaynscan `main.ts`
66-76, Mangabuddy `main.ts` 691-701) — see the cookie model below. -/
structure Cookie where
  name : JStr
  expires : Option Int
deriving DecidableEq, Repr

/-- `cookie.expires && cookie.expires.getTime() <= Date.now()`. -/
def cookieExpired (now : Int) (c : Cookie) : Bool :=
  match c.expires with
  | some t => decide (t ≤ now)
  | none => false

/-- Modelled from the spec: the host `CookieStorageInterceptor` (an external
collaborator from the types package, not in this repository) is a
domain-cookie store with keyed set/delete; modelled as a list where
`deleteCookie` removes the cookie's name and `setCookie` upserts it. -/
def deleteCookie (s : List Cookie) (c : Cookie) : List Cookie :=
  s.filter (fun x => decide (x.name ≠ c.name))

/-- Modelled from the spec: keyed cookie insertion (see `deleteCookie`). -/
def setCookie (s : List Cookie) (c : Cookie) : List Cookie :=
  s.filter (fun x => decide (x.name ≠ c.name)) ++ [c]

/-- `saveCloudflareBypassCookies`: delete every cookie currently in the
store, then store each supplied cookie unless it is already expired. -/
def saveCloudflareBypassCookies (now : Int) (store : List Cookie)
    (cookies : List Cookie) : List Cookie :=
  let cleared := store.foldl deleteCookie store
  cookies.foldl (fun s c => if cookieExpired now c then s else setCookie s c) cleared

/-! ### Mangabuddy (`src/Mangabuddy/main.ts`) -/

/-- `const baseUrl = "https://mangabuddy.com"`. -/
def mbBase : JStr := jstr "https://mangabuddy.com"

/-- JS `a || b` for an optional string attribute: falsy (absent or empty)
falls through to the default. -/
def jsOr (a : Option JStr) (b : JStr) : JStr :=
  match a with
  | some s => if s = [] then b else s
  | none => b

/-- `checkCloudflareStatus` + `fetchCheerio` (Mangabuddy `main.ts` 703-715):
a 503/403 response status throws `CloudflareError`. -/
def mbFetchCheerio (status : Nat) (doc : α) : Except CFError α :=
  if status = 503 ∨ status = 403 then .error ⟨mbBase, jstr "GET"⟩
  else .ok doc

/-- One `.list.manga-list .book-detailed-item` element: the title link's
text, the thumb image's `data-src` and `src` attributes, the title link's
`href`, the `.latest-chapter` text, the `.genres span` texts, and the
`.chapter-link` element's `data-id`. -/
structure MBBookItem where
  linkText : JStr
  dataSrc : Option JStr
  src : Option JStr
  href : Option JStr
  latestChapter : JStr
  genreSpans : List JStr
  chapterDataId : Option JStr
deriving DecidableEq, Repr

/-- One `.top-item` element of the Mangabuddy home page. -/
structure MBTopItem where
  titleText : JStr
  imgDataSrc : Option JStr
  imgSrc : Option JStr
  thumbHref : Option JStr
  chapText : JStr
deriving DecidableEq, Repr

/-- A Mangabuddy listing document: the book items, the home-page top items,
and the count of `$(".paginator .btn.link").not(".active")` elements. -/
structure MBDoc where
  bookItems : List MBBookItem
  topItems : List MBTopItem
  paginatorCount : Nat
deriving DecidableEq, Repr

/-- `item.find(".thumb img").attr("data-src") || ...attr("src") || ""`. -/
def mbItemImage (it : MBBookItem) : JStr := jsOr it.dataSrc (jsOr it.src [])

/-- `link.attr("href")?.substring(1) || ""`. -/
def mbItemId (it : MBBookItem) : JStr :=
  match it.href with
  | some h => h.drop 1
  | none => []

/-- `chapterMatch ? "Ch. " + chapterMatch[1] : undefined`. -/
def mbItemSubtitle (it : MBBookItem) : Option JStr :=
  (chapterSpaceNumMatch it.latestChapter).map (fun d => jstr "Ch. " ++ d)

/-- One step of the Mangabuddy updated-section loop (`main.ts` 555-581):
requires title and id, deduplicates against the collected ids, then pushes
both the id and the item. -/
def mbUpdatedStep (st : List JStr × List DiscItem) (it : MBBookItem) :
    List JStr × List DiscItem :=
  let title := it.linkText
  let mangaId := mbItemId it
  if title ≠ [] ∧ mangaId ≠ [] ∧ mangaId ∉ st.1 then
    (st.1 ++ [mangaId],
     st.2 ++ [⟨jstr "chapterUpdatesCarouselItem", mangaId, mbItemImage it, title,
               mbItemSubtitle it, none, some (jsOr it.chapterDataId (jstr "0"))⟩])
  else st

/-- `getUpdatedSectionItems` (Mangabuddy `main.ts` 540-589). -/
def mbGetUpdatedSectionItems (metadata : Option PageMeta) (fetch : JStr → MBDoc) :
    PagedDisc :=
  let page := metaPage metadata
  let collectedIds := metaIds metadata
  let doc := fetch (mbBase ++ jstr "/latest?page=" ++ renderNat page)
  let st := doc.bookItems.foldl mbUpdatedStep (collectedIds, [])
  { items := st.2
    metadata := if 0 < doc.paginatorCount then some ⟨some (page + 1), some st.1⟩ else none }

/-- One step of the Mangabuddy popular-section loop (`main.ts` 604-627):
no deduplication and no pagination. -/
def mbPopularStep (st : List DiscItem) (u : MBTopItem) : List DiscItem :=
  let title := u.titleText
  let mangaId := match u.thumbHref with
    | some h => h.drop 1
    | none => []
  let supertitle := match chapterSpaceNumMatch u.chapText with
    | some d => jstr "Ch. " ++ d
    | none => []
  if title ≠ [] ∧ mangaId ≠ [] then
    st ++ [⟨jstr "featuredCarouselItem", mangaId, jsOr u.imgDataSrc (jsOr u.imgSrc []),
            title, none, some supertitle, none⟩]
  else st

/-- `getPopularSectionItems` (Mangabuddy `main.ts` 591-633): fetches the
home page and always returns `metadata: undefined`. -/
def mbGetPopularSectionItems (metadata : Option PageMeta) (fetch : JStr → MBDoc) :
    PagedDisc :=
  let _ := metadata
  let doc := fetch (mbBase ++ jstr "/home")
  { items := doc.topItems.foldl mbPopularStep []
    metadata := none }

/-- One step of the Mangabuddy new-manga loop (`main.ts` 656-681). -/
def mbNewStep (st : List JStr × List DiscItem) (it : MBBookItem) :
    List JStr × List DiscItem :=
  let title := it.linkText
  let mangaId := mbItemId it
  if title ≠ [] ∧ mangaId ≠ [] ∧ mangaId ∉ st.1 then
    (st.1 ++ [mangaId],
     st.2 ++ [⟨jstr "simpleCarouselItem", mangaId, mbItemImage it, title,
               mbItemSubtitle it, none, none⟩])
  else st

/-- `getNewMangaSectionItems` (Mangabuddy `main.ts` 635-689).  The URL is
assembled by `URLBuilder` (utility source not included in the repository
snapshot); modelled from its call sequence. -/
def mbGetNewMangaSectionItems (metadata : Option PageMeta) (fetch : JStr → MBDoc) :
    PagedDisc :=
  let page := metaPage metadata
  let collectedIds := metaIds metadata
  let doc := fetch
    (mbBase ++ jstr "/search?status=all&sort=created_at&q=&page=" ++ renderNat page)
  let st := doc.bookItems.foldl mbNewStep (collectedIds, [])
  { items := st.2
    metadata := if 0 < doc.paginatorCount then some ⟨some (page + 1), some st.1⟩ else none }

/-- `getDiscoverSectionItems` (Mangabuddy `main.ts` 204-218): dispatch on the
section id; unrecognized ids return `{ items: [] }` without fetching. -/
def mbGetDiscoverSectionItems (sectionId : JStr) (metadata : Option PageMeta)
    (fetch : JStr → MBDoc) : PagedDisc :=
  if sectionId = jstr "popular_section" then mbGetPopularSectionItems metadata fetch
  else if sectionId = jstr "updated_section" then mbGetUpdatedSectionItems metadata fetch
  else if sectionId = jstr "new_manga_section" then mbGetNewMangaSectionItems metadata fetch
  else { items := [], metadata := none }

/-- A multiselect option state (`"included" | "excluded"`). -/
inductive MBSel where
  | included
  | excluded
deriving DecidableEq, Repr

/-- A search filter value: a plain string (dropdowns) or a record mapping
option ids to include/exclude states (the genre multiselect). -/
inductive MBFilterVal where
  | str (s : JStr)
  | dict (m : List (JStr × MBSel))
deriving DecidableEq, Repr

/-- One entry of `query.filters`. -/
structure MBFilter where
  id : JStr
  value : MBFilterVal
deriving DecidableEq, Repr

/-- `SearchQuery`: the free-text title and the filters. -/
structure MBQuery where
  title : Option JStr
  filters : List MBFilter
deriving DecidableEq, Repr

/-- `query.filters.find((filter) => filter.id == id)?.value`. -/
def getFilterValue (q : MBQuery) (id : JStr) : Option MBFilterVal :=
  (q.filters.find? (fun f => f.id == id)).map (·.value)

/-- The per-item genre slugs (`main.ts` 323-327): nonempty span texts,
lowercased with whitespace runs collapsed to dashes. -/
def mbItemGenres (it : MBBookItem) : List JStr :=
  (it.genreSpans.filter (fun g => !g.isEmpty)).map (fun g => collapseWs (jsToLower g))

/-- The excluded-genre post-filter (`main.ts` 330-336): drop the result when
the genres filter is a record and some item genre is marked excluded. -/
def mbExcludedByGenres (q : MBQuery) (genres : List JStr) : Bool :=
  match getFilterValue q (jstr "genres") with
  | some (MBFilterVal.dict m) =>
    genres.any (fun g => decide (m.lookup g = some MBSel.excluded))
  | _ => false

/-- One step of the Mangabuddy search-result loop (`main.ts` 311-346).  Note
that the image URL is returned exactly as extracted. -/
def mbSearchStep (q : MBQuery) (st : List SearchItem) (it : MBBookItem) :
    List SearchItem :=
  let title := it.linkText
  let mangaId := mbItemId it
  let genres := mbItemGenres it
  if genres ≠ [] ∧ mbExcludedByGenres q genres then st
  else if title ≠ [] ∧ mangaId ≠ [] then
    st ++ [⟨mangaId, mbItemImage it, title, mbItemSubtitle it⟩]
  else st

/-- `getSearchResults` (Mangabuddy `main.ts` 265-354), given the fetched
document (the search-URL construction does not affect any claim). -/
def mbGetSearchResults (q : MBQuery) (metadata : Option SearchMeta) (doc : MBDoc) :
    PagedSearch :=
  let page := searchPage metadata
  { items := doc.bookItems.foldl (mbSearchStep q) []
    metadata := if 0 < doc.paginatorCount then some ⟨some (page + 1)⟩ else none }

/-- The relative units handled by `convertToISO8601` (`main.ts` 745-763):
only second, minute, hour and day. -/
def mbRelUnits : List (JStr × Int) :=
  [(jstr "second", 1000), (jstr "minute", 60000), (jstr "hour", 3600000),
   (jstr "day", 86400000)]

/-- `convertToISO8601` (Mangabuddy `main.ts` 735-771), returning the
timestamp the produced ISO string denotes.  `pa` models `new Date(text)` on
a free-form string (`none` = Invalid Date).  An empty/blank text, and a text
that neither matches the relative pattern nor parses as an absolute date,
yield `now`. -/
def convertToISO8601 (pa : JStr → Option Int) (now : Int) (dateText : JStr) : Int :=
  if jsTrim dateText = [] then now
  else if jsToLower dateText = jstr "yesterday" then now - 86400000
  else match relTimeMatch mbRelUnits dateText with
    | some (v, ms) => now - (v : Int) * ms
    | none =>
      match pa dateText with
      | some t => t
      | none => now

/-- One `.chapter-list li` element of the Mangabuddy chapter API response:
the link's `href`, the `.chapter-title` text and the `time.chapter-update`
text. -/
structure MBChapterLi where
  href : Option JStr
  chapterTitle : JStr
  dateText : JStr
deriving DecidableEq, Repr

/-- A chapter record as built by `getChapters` (the fields the claims
concern; `sourceManga`, `volume` and `langCode` are constant wiring). -/
structure MBChapter where
  chapterId : JStr
  title : JStr
  chapNum : JNum
  publishDate : Option Int
deriving DecidableEq, Repr

/-- One candidate of the Mangabuddy chapter loop (`main.ts` 449-496): skip
when the URL is missing, does not match `/chapter-(\d+(?:\.\d+)?)/i`, or the
parsed number is NaN or zero (a matched capture always parses, so only the
zero test can fire). -/
def mbBuildChapter (pa : JStr → Option Int) (now : Int) (li : MBChapterLi) :
    Option MBChapter :=
  let chapterUrl := li.href.getD []
  if chapterUrl = [] then none
  else match chapterDashMatch chapterUrl with
    | none => none
    | some idStr =>
      let chapterNumber := parseDecimal idStr
      if chapterNumber = JNum.zero then none
      else some ⟨idStr, li.chapterTitle, chapterNumber,
        if li.dateText = [] then none
        else some (convertToISO8601 pa now li.dateText)⟩

/-- The chapter records in document order, before sorting. -/
def mangabuddyExtractChapters (pa : JStr → Option Int) (now : Int)
    (lis : List MBChapterLi) : List MBChapter :=
  lis.filterMap (mbBuildChapter pa now)

/-- `getChapters` (Mangabuddy `main.ts` 431-504): build in document order,
then `chapters.sort((a, b) => b.chapNum - a.chapNum)`. -/
def mangabuddyGetChapters (pa : JStr → Option Int) (now : Int)
    (lis : List MBChapterLi) : List MBChapter :=
  sortDesc (·.chapNum) (mangabuddyExtractChapters pa now lis)

/-- The pages scraped by Mangabuddy `getChapterDetails` (`main.ts` 516-523):
the comma-split `chapImages` capture, or nothing (with only a console log)
when the script is absent. -/
def mangabuddyChapterPages (script : JStr) : List JStr :=
  match chapImagesMatch script with
  | some s => s.splitOn ','
  | none => []

/-- `getChapterDetails` (Mangabuddy `main.ts` 506-534): always returns a
result record; an absent image script yields an empty pages list, not an
error. -/
def mangabuddyGetChapterDetails (mangaId chapterId script : JStr) :
    Except JStr ChapterDetailsRec :=
  .ok ⟨mangaId, chapterId, mangabuddyChapterPages script⟩

/-- One anchor matched by the Kaynscan chapter-list query
`$("a[href*='/chapter/']")` (`main.ts` 361): its `href` (`|| ""`), whether a
lock-overlay image was found under it, its `c` (coin cost) attribute, its
`title` attribute (`|| ""`), the `.text-sm` text and the date div text. -/
structure KaynChapterAnchor where
  href : JStr
  hasLockOverlay : Bool
  coinCost : Option JStr
  titleAttr : JStr
  textSm : JStr
  dateText : JStr
deriving DecidableEq, Repr

/-- One candidate of the primary Kaynscan chapter loop (`main.ts` 361-460):
skip when the URL is missing, the chapter is locked (lock overlay, or coin
cost parsing above 1), the URL has no chapter id, or the title yields no
number (`chapterNumber` stays 0) or parses to zero.  The record reuses the
chapter shape shared with Mangabuddy (`sourceManga`/`langCode` are constant
wiring). -/
def kaynBuildChapter (now : Int) (a : KaynChapterAnchor) : Option MBChapter :=
  if a.href = [] then none
  else
    let coin := jsOr a.coinCost (jstr "1")
    let isLocked := a.hasLockOverlay ||
      (match jsParseInt coin with
        | some n => decide (1 < n)
        | none => false)
    if isLocked then none
    else
      match chapterSlashIdMatch a.href with
      | none => none
      | some chapterId =>
        let titleText := if a.titleAttr = [] then a.textSm else a.titleAttr
        match chapterWsNumMatch titleText with
        | none => none
        | some numStr =>
          let chapterNumber := parseDecimal numStr
          if chapterNumber = JNum.zero then none
          else some ⟨chapterId, jstr "Chapter " ++ renderJNum chapterNumber,
            chapterNumber, kaynParseRelDate now a.dateText⟩

/-- The primary Kaynscan chapter records in document order, before
sorting. -/
def kaynExtractChapters (now : Int) (anchors : List KaynChapterAnchor) :
    List MBChapter :=
  anchors.filterMap (kaynBuildChapter now)

/-- `getChapters` (primary Kaynscan `main.ts` 351-463): build in document
order, then `chapters.sort((a, b) => b.chapNum - a.chapNum)`. -/
def kaynGetChapters (now : Int) (anchors : List KaynChapterAnchor) :
    List MBChapter :=
  sortDesc (·.chapNum) (kaynExtractChapters now anchors)

/-! ### The unnamed Kaynscan variant (`src/unnamed/part_003`) -/

/-- `fetchCheerio` of the part_003 variant (lines 308-313): it performs no
response-status check at all. -/
def p3FetchCheerio (_status : Nat) (doc : α) : Except CFError α := .ok doc

/-- One `.chapter-list li, .chapter-item, ul.chapters li` element of the
part_003 chapter list: the first link's `href`, the link text (trimmed) and
the `.date, .time, time` text (trimmed). -/
structure P3ChapterItem where
  href : Option JStr
  linkText : JStr
  dateText : JStr
deriving DecidableEq, Repr

/-- One candidate of the part_003 chapter loop (lines 226-255): the URL must
match `/\/chapter-(\d+(?:\.\d+)?)/i` or `/\/(\d+(?:\.\d+)?)$/`; the only
numeric guard is `isNaN`, which a matched capture never satisfies — in
particular a parsed number of zero is kept.  `new Date(dateText)` on
unparsable text yields an Invalid Date, modelled as an omitted date. -/
def p3BuildChapter (pa : JStr → Option Int) (item : P3ChapterItem) :
    Option MBChapter :=
  let chapterUrl := item.href.getD []
  if chapterUrl = [] then none
  else match (chapterDashMatch chapterUrl).orElse (fun _ => endNumMatch chapterUrl) with
    | none => none
    | some idStr =>
      let chapterNumber := parseDecimal idStr
      let chapterTitle :=
        if item.linkText = [] then jstr "Chapter " ++ renderJNum chapterNumber
        else item.linkText
      some ⟨idStr, chapterTitle, chapterNumber,
        if item.dateText = [] then none else pa item.dateText⟩

/-- The part_003 chapter records in document order, before sorting. -/
def p3ExtractChapters (pa : JStr → Option Int) (items : List P3ChapterItem) :
    List MBChapter :=
  items.filterMap (p3BuildChapter pa)

/-- `getChapters` of the part_003 variant (lines 217-258). -/
def p3GetChapters (pa : JStr → Option Int) (items : List P3ChapterItem) :
    List MBChapter :=
  sortDesc (·.chapNum) (p3ExtractChapters pa items)

/-! ## Helper lemmas -/

theorem JNum.le_refl (a : JNum) : JNum.le a a := Nat.le_refl _

theorem JNum.le_flip {a b : JNum} (h : ¬ JNum.le a b) : JNum.le b a := by
  unfold JNum.le at h ⊢
  exact le_of_not_le h

theorem JNum.le_trans {a b c : JNum} (h1 : JNum.le a b) (h2 : JNum.le b c) :
    JNum.le a c := by
  unfold JNum.le at h1 h2 ⊢
  have hp : 0 < 10 ^ b.scale := pow_pos (by norm_num) _
  have H1 := Nat.mul_le_mul_right (10 ^ c.scale) h1
  have H2 := Nat.mul_le_mul_right (10 ^ a.scale) h2
  apply Nat.le_of_mul_le_mul_right _ hp
  calc a.mant * 10 ^ c.scale * 10 ^ b.scale
      = a.mant * 10 ^ b.scale * 10 ^ c.scale := by ring
    _ ≤ b.mant * 10 ^ a.scale * 10 ^ c.scale := H1
    _ = b.mant * 10 ^ c.scale * 10 ^ a.scale := by ring
    _ ≤ c.mant * 10 ^ b.scale * 10 ^ a.scale := H2
    _ = c.mant * 10 ^ a.scale * 10 ^ b.scale := by ring

theorem mem_insertDesc (key : α → JNum) (a : α) (l : List α) (x : α) :
    x ∈ insertDesc key a l ↔ x = a ∨ x ∈ l := by
  induction l with
  | nil => simp [insertDesc]
  | cons b bs ih =>
    unfold insertDesc
    split
    · simp [List.mem_cons]
    · simp only [List.mem_cons, ih]
      tauto

theorem pairwise_insertDesc (key : α → JNum) (a : α) (l : List α)
    (h : l.Pairwise (fun x y => JNum.le (key y) (key x))) :
    (insertDesc key a l).Pairwise (fun x y => JNum.le (key y) (key x)) := by
  induction l with
  | nil => simp [insertDesc]
  | cons b bs ih =>
    rw [List.pairwise_cons] at h
    obtain ⟨hb, hbs⟩ := h
    unfold insertDesc
    split
    case isTrue hle =>
      refine List.Pairwise.cons ?_ (List.Pairwise.cons hb hbs)
      intro y hy
      rcases List.mem_cons.mp hy with rfl | hy'
      · exact hle
      · exact JNum.le_trans (hb y hy') hle
    case isFalse hnle =>
      refine List.Pairwise.cons ?_ (ih hbs)
      intro y hy
      rcases (mem_insertDesc key a bs y).mp hy with rfl | hy'
      · exact JNum.le_flip hnle
      · exact hb y hy'

theorem pairwise_sortDesc (key : α → JNum) (l : List α) :
    (sortDesc key l).Pairwise (fun x y => JNum.le (key y) (key x)) := by
  induction l with
  | nil => simp [sortDesc]
  | cons a as ih => exact pairwise_insertDesc key a (sortDesc key as) ih

theorem filter_insertDesc (key : α → JNum) (x : JNum) (a : α) (l : List α) :
    (insertDesc key a l).filter (fun b => decide (key b = x)) =
      if key a = x then a :: l.filter (fun b => decide (key b = x))
      else l.filter (fun b => decide (key b = x)) := by
  induction l with
  | nil => by_cases h : key a = x <;> simp [insertDesc, h]
  | cons b bs ih =>
    unfold insertDesc
    split
    case isTrue hle =>
      by_cases h : key a = x <;> simp [List.filter_cons, h]
    case isFalse hnle =>
      by_cases hb : key b = x
      · have ha : ¬ key a = x := by
          intro ha
          exact hnle (by rw [hb, ha]; exact JNum.le_refl x)
        simp [List.filter_cons, hb, ha, ih]
      · by_cases ha : key a = x <;> simp [List.filter_cons, hb, ha, ih]

theorem filter_sortDesc (key : α → JNum) (x : JNum) (l : List α) :
    (sortDesc key l).filter (fun b => decide (key b = x)) =
      l.filter (fun b => decide (key b = x)) := by
  induction l with
  | nil => rfl
  | cons a as ih =>
    show (insertDesc key a (sortDesc key as)).filter _ = _
    rw [filter_insertDesc]
    by_cases h : key a = x <;> simp [List.filter_cons, h, ih]

theorem mem_sortDesc (key : α → JNum) (l : List α) (x : α) :
    x ∈ sortDesc key l ↔ x ∈ l := by
  induction l with
  | nil => simp [sortDesc]
  | cons a as ih =>
    show x ∈ insertDesc key a (sortDesc key as) ↔ _
    rw [mem_insertDesc, ih]
    simp [List.mem_cons]

theorem foldl_inv {σ β : Type _} {step : σ → β → σ} {P : σ → Prop}
    (h : ∀ s a, P s → P (step s a)) :
    ∀ (l : List β) (s : σ), P s → P (l.foldl step s)
  | [], _, hs => hs
  | a :: l, s, hs => foldl_inv h l (step s a) (h s a hs)

theorem canonJNum_eq_zero : ∀ (s m : Nat), (canonJNum m s).mant = 0 →
    canonJNum m s = JNum.zero
  | 0, m, h => by
    unfold canonJNum at h ⊢
    simp only at h
    simp [h, JNum.zero]
  | s + 1, m, h => by
    unfold canonJNum at h ⊢
    split at h
    case isTrue h10 => rw [if_pos h10]; exact canonJNum_eq_zero s (m / 10) h
    case isFalse h10 =>
      exfalso
      simp only at h
      exact h10 (by rw [h])

theorem parseDecimal_zero_or_pos (s : JStr) :
    parseDecimal s = JNum.zero ∨ 0 < (parseDecimal s).mant := by
  unfold parseDecimal
  cases hr : s.dropWhile Char.isDigit with
  | nil =>
    rcases Nat.eq_zero_or_pos (parseNatDigits (s.takeWhile Char.isDigit)) with h0 | hp
    · left; simp [h0, JNum.zero]
    · right; exact hp
  | cons c f =>
    rcases Nat.eq_zero_or_pos
      (canonJNum (parseNatDigits (s.takeWhile Char.isDigit) * 10 ^ f.length
        + parseNatDigits f) f.length).mant with h0 | hp
    · left; exact canonJNum_eq_zero _ _ h0
    · right; exact hp

theorem kaynDiscoverStep_eq (sectionId : JStr) (st : List JStr × List DiscItem)
    (a : KaynAnchor) :
    kaynDiscoverStep sectionId st a = st ∨
    (kaynAnchorId a ∉ st.1 ∧ ∃ item : DiscItem,
      item.mangaId = kaynAnchorId a ∧ item.imageUrl = kaynImageUrl (kaynAnchorImage a) ∧
      kaynDiscoverStep sectionId st a = (st.1 ++ [kaynAnchorId a], st.2 ++ [item])) := by
  simp only [kaynDiscoverStep]
  split
  · left; rfl
  split
  · left; rfl
  split
  · left; rfl
  next h3 =>
    right
    refine ⟨h3, _, ?_, ?_, rfl⟩ <;> split <;> rfl

theorem mbUpdatedStep_eq (st : List JStr × List DiscItem) (it : MBBookItem) :
    mbUpdatedStep st it = st ∨
    (mbItemId it ∉ st.1 ∧ ∃ item : DiscItem,
      item.mangaId = mbItemId it ∧
      mbUpdatedStep st it = (st.1 ++ [mbItemId it], st.2 ++ [item])) := by
  simp only [mbUpdatedStep]
  split
  next h => exact Or.inr ⟨h.2.2, _, rfl, rfl⟩
  next => exact Or.inl rfl

theorem pushLoop_inv {β : Type _} (ids0 : List JStr)
    (step : List JStr × List DiscItem → β → List JStr × List DiscItem)
    (idOf : β → JStr)
    (hstep : ∀ st a, step st a = st ∨
      (idOf a ∉ st.1 ∧ ∃ item : DiscItem, item.mangaId = idOf a ∧
        step st a = (st.1 ++ [idOf a], st.2 ++ [item])))
    (l : List β) :
    (l.foldl step (ids0, [])).1 = ids0 ++ (l.foldl step (ids0, [])).2.map (·.mangaId) ∧
    ((l.foldl step (ids0, [])).2.map (·.mangaId)).Nodup ∧
    ∀ i ∈ (l.foldl step (ids0, [])).2, i.mangaId ∉ ids0 := by
  have key : ∀ (st : List JStr × List DiscItem) a,
      (st.1 = ids0 ++ st.2.map (·.mangaId) ∧ (st.2.map (·.mangaId)).Nodup ∧
        ∀ i ∈ st.2, i.mangaId ∉ ids0) →
      ((step st a).1 = ids0 ++ (step st a).2.map (·.mangaId) ∧
        ((step st a).2.map (·.mangaId)).Nodup ∧
        ∀ i ∈ (step st a).2, i.mangaId ∉ ids0) := by
    intro st a h
    obtain ⟨h1, h2, h3⟩ := h
    rcases hstep st a with heq | ⟨hnotin, item, hitem, heq⟩
    · rw [heq]; exact ⟨h1, h2, h3⟩
    · rw [heq]
      rw [h1] at hnotin
      have hid : idOf a ∉ ids0 ∧ idOf a ∉ st.2.map (·.mangaId) := by
        constructor <;> intro hc <;>
          exact hnotin (List.mem_append.mpr (by first | exact Or.inl hc | exact Or.inr hc))
      refine ⟨?_, ?_, ?_⟩
      · rw [h1, List.map_append, List.append_assoc]
        simp [hitem]
      · rw [List.map_append]
        rw [List.nodup_append]
        refine ⟨h2, by simp, ?_⟩
        intro x hx
        simp only [List.map_cons, List.map_nil, List.mem_singleton, hitem]
        intro hxeq
        exact hid.2 (hxeq ▸ hx)
      · intro i hi
        rcases List.mem_append.mp hi with hi' | hi''
        · exact h3 i hi'
        · rw [List.mem_singleton] at hi''
          subst hi''
          rw [hitem]
          exact hid.1
  exact foldl_inv key l (ids0, []) ⟨by simp, by simp, by simp⟩

/-- `ensureHttps` output never carries the insecure scheme. -/
theorem ensureHttps_no_http (u : JStr) :
    jsStartsWith (ensureHttps u) (jstr "http://") = false := by
  unfold ensureHttps
  split
  next h =>
    show jsStartsWith (jstr "https://" ++ u.drop 7) (jstr "http://") = false
    simp only [jsStartsWith, jstr]
    rw [List.take_append_eq_append_take]
    norm_num
    all_goals decide
  next h =>
    simpa using h

theorem foldl_push_inv {β γ : Type _} (step : List γ → β → List γ) (Q : γ → Prop)
    (hstep : ∀ ps a, step ps a = ps ∨ ∃ x, Q x ∧ step ps a = ps ++ [x]) :
    ∀ (l : List β) (ps : List γ), (∀ x ∈ ps, Q x) → ∀ x ∈ l.foldl step ps, Q x := by
  intro l ps hps
  refine foldl_inv (P := fun s => ∀ x ∈ s, Q x) ?_ l ps hps
  intro s a hs x hx
  rcases hstep s a with heq | ⟨y, hy, heq⟩
  · rw [heq] at hx; exact hs x hx
  · rw [heq] at hx
    rcases List.mem_append.mp hx with h' | h''
    · exact hs x h'
    · rw [List.mem_singleton] at h''; exact h'' ▸ hy

theorem kaynSearchStep_eq (st : List SearchItem) (a : KaynAnchor) :
    kaynSearchStep st a = st ∨
    ∃ s : SearchItem, s.imageUrl = kaynImageUrl (kaynAnchorImage a) ∧
      kaynSearchStep st a = st ++ [s] := by
  simp only [kaynSearchStep]
  split
  · left; rfl
  split
  · left; rfl
  · right; exact ⟨_, rfl, rfl⟩

theorem kaynTier1_no_http (imgs : List KImg) :
    ∀ p ∈ kaynTier1 imgs, jsStartsWith p (jstr "http://") = false := by
  refine foldl_push_inv _ _ ?_ imgs [] (by simp)
  intro ps img
  by_cases h : kaynTier1Url img = []
  · left; exact if_pos h
  · right
    exact ⟨ensureHttps (kaynTier1Url img), ensureHttps_no_http _, if_neg h⟩

theorem kaynTier2_no_http (imgs : List KImg) :
    ∀ p ∈ kaynTier2 imgs, jsStartsWith p (jstr "http://") = false := by
  refine foldl_push_inv _ _ ?_ imgs [] (by simp)
  intro ps img
  show (if img.src ≠ [] ∧ jsIncludes img.src (jstr "cdn.meowing.org") = true then
      ps ++ [ensureHttps img.src]
    else if img.uid ≠ [] then
      ps ++ [ensureHttps (jstr "https://cdn.meowing.org/uploads/" ++ img.uid)]
    else ps) = ps ∨ _
  split
  · right; exact ⟨_, ensureHttps_no_http _, rfl⟩
  split
  · right; exact ⟨_, ensureHttps_no_http _, rfl⟩
  · left; rfl

theorem kaynTier3_no_http (script : JStr) :
    ∀ p ∈ kaynTier3 script, jsStartsWith p (jstr "http://") = false := by
  unfold kaynTier3
  split
  · simp
  · refine foldl_push_inv _ _ ?_ _ [] (by simp)
    intro ps u
    right; exact ⟨_, ensureHttps_no_http _, rfl⟩

theorem kaynChapterPagesList_no_http (doc : KaynChapterDoc) :
    ∀ p ∈ kaynChapterPagesList doc, jsStartsWith p (jstr "http://") = false := by
  intro p hp
  simp only [kaynChapterPagesList] at hp
  split at hp
  · exact kaynTier1_no_http doc.myImages p hp
  · split at hp
    · exact kaynTier2_no_http doc.fallbackImages p hp
    · exact kaynTier3_no_http doc.scriptHtml p hp

theorem kaynExtract_no_http (sectionId : JStr) (ids0 : List JStr) (doc : KaynDoc) :
    ∀ i ∈ (kaynExtract sectionId ids0 doc).2,
      jsStartsWith i.imageUrl (jstr "http://") = false := by
  unfold kaynExtract
  refine foldl_inv
    (P := fun st : List JStr × List DiscItem =>
      ∀ i ∈ st.2, jsStartsWith i.imageUrl (jstr "http://") = false)
    ?_ doc.anchors (ids0, []) (by simp)
  intro st a hs i hi
  rcases kaynDiscoverStep_eq sectionId st a with heq | ⟨_, item, _, hurl, heq⟩
  · rw [heq] at hi; exact hs i hi
  · rw [heq] at hi
    rcases List.mem_append.mp hi with h' | h''
    · exact hs i h'
    · rw [List.mem_singleton] at h''
      subst h''
      rw [hurl]
      exact ensureHttps_no_http _

/-- Deleting every cookie of the snapshot empties the store. -/
theorem foldl_deleteCookie_eq_nil :
    ∀ (l acc : List Cookie), (∀ x ∈ acc, ∃ c ∈ l, x.name = c.name) →
      l.foldl deleteCookie acc = [] := by
  intro l
  induction l with
  | nil =>
    intro acc h
    cases acc with
    | nil => rfl
    | cons a t =>
      obtain ⟨c, hc, _⟩ := h a (List.mem_cons_self a t)
      exact absurd hc (List.not_mem_nil c)
  | cons c rest ih =>
    intro acc h
    show List.foldl deleteCookie (deleteCookie acc c) rest = []
    apply ih
    intro x hx
    unfold deleteCookie at hx
    rw [List.mem_filter] at hx
    obtain ⟨hxa, hneq⟩ := hx
    obtain ⟨c', hc', hname⟩ := h x hxa
    rcases List.mem_cons.mp hc' with rfl | h' 
    · exact absurd hname (by simpa using hneq)
    · exact ⟨c', h', hname⟩

/-- With pairwise-distinct supplied names, the cookie-saving fold appends
exactly the unexpired cookies. -/
theorem foldl_setCookie_eq_filter (now : Int) :
    ∀ (l acc : List Cookie),
      (∀ x ∈ acc, ∀ c ∈ l, x.name ≠ c.name) → (l.map (·.name)).Nodup →
      l.foldl (fun s c => if cookieExpired now c then s else setCookie s c) acc =
        acc ++ l.filter (fun c => !cookieExpired now c) := by
  intro l
  induction l with
  | nil => intro acc _ _; simp
  | cons c rest ih =>
    intro acc hdisj hnd
    rw [List.map_cons, List.nodup_cons] at hnd
    obtain ⟨hcn, hnd'⟩ := hnd
    show List.foldl _ (if cookieExpired now c then acc else setCookie acc c) rest = _
    by_cases hexp : cookieExpired now c
    · rw [if_pos hexp]
      rw [ih acc (fun x hx c' hc' => hdisj x hx c' (List.mem_cons_of_mem _ hc')) hnd']
      simp [List.filter_cons, hexp]
    · rw [if_neg hexp]
      have hset : setCookie acc c = acc ++ [c] := by
        unfold setCookie
        congr 1
        apply List.filter_eq_self.mpr
        intro x hx
        simpa using hdisj x hx c (List.mem_cons_self c rest)
      rw [hset]
      rw [ih (acc ++ [c]) ?_ hnd']
      · simp [List.filter_cons, hexp]
      · intro x hx c' hc'
        rcases List.mem_append.mp hx with h1 | h2
        · exact hdisj x h1 c' (List.mem_cons_of_mem _ hc')
        · rw [List.mem_singleton] at h2
          subst h2
          intro heq
          exact hcn (heq ▸ List.mem_map_of_mem (·.name) hc')

/-- Everything the cookie-saving fold stores is an unexpired supplied
cookie. -/
theorem foldl_setCookie_mem (now : Int) (supplied : List Cookie) :
    ∀ (l : List Cookie), (∀ c ∈ l, c ∈ supplied) →
      ∀ (acc : List Cookie),
        (∀ x ∈ acc, x ∈ supplied ∧ cookieExpired now x = false) →
        ∀ x ∈ l.foldl (fun s c => if cookieExpired now c then s else setCookie s c) acc,
          x ∈ supplied ∧ cookieExpired now x = false := by
  intro l
  induction l with
  | nil => intro _ acc hacc x hx; exact hacc x hx
  | cons c rest ih =>
    intro hl acc hacc x hx
    refine ih (fun c' hc' => hl c' (List.mem_cons_of_mem _ hc')) _ ?_ x hx
    intro y hy
    dsimp only at hy
    by_cases hexp : cookieExpired now c
    · rw [if_pos hexp] at hy; exact hacc y hy
    · rw [if_neg hexp] at hy
      unfold setCookie at hy
      rcases List.mem_append.mp hy with h1 | h2
      · exact hacc y (List.mem_filter.mp h1).1
      · rw [List.mem_singleton] at h2
        subst h2
        exact ⟨hl y (List.mem_cons_self y rest), by simpa using hexp⟩

theorem mbBuildChapter_pos (pa : JStr → Option Int) (now : Int) (li : MBChapterLi)
    (c : MBChapter) (h : mbBuildChapter pa now li = some c) :
    0 < c.chapNum.mant := by
  simp only [mbBuildChapter] at h
  split at h
  · exact absurd h (by simp)
  · split at h
    · exact absurd h (by simp)
    next idStr _ =>
      split at h
      · exact absurd h (by simp)
      next hzero =>
        cases h
        rcases parseDecimal_zero_or_pos idStr with h0 | hp
        · exact absurd h0 hzero
        · exact hp

/-! ## Claims -/

/-- C1 (amended): Kaynscan's `getChapterDetails` never returns a successful
result with an empty pages list — when all fallback tiers yield zero page
URLs it fails with an explicit error.  Mangabuddy's `getChapterDetails`
always succeeds at this stage, returning whatever the `chapImages` script
scrape produced, which is the empty list when the script is absent. -/
theorem c1_chapter_pages_amended :
    (∀ (m c : JStr) (doc : KaynChapterDoc) (r : ChapterDetailsRec),
      kaynGetChapterDetails m c doc = Except.ok r → r.pages ≠ [])
    ∧ (∀ m c s : JStr,
      mangabuddyGetChapterDetails m c s = Except.ok ⟨m, c, mangabuddyChapterPages s⟩) := by
  constructor
  · intro m c doc r h
    simp only [kaynGetChapterDetails] at h
    split at h
    · exact absurd h (by simp)
    next hne =>
      cases h
      exact hne
  · intro m c s
    rfl

/-- Witness for C1: a Kaynscan chapter document with one uid-carrying image
yields a successful result, and the theorem certifies its pages nonempty. -/
theorem c1_chapter_pages_witness :
    (⟨jstr "m", jstr "c", [jstr "https://cdn.meowing.org/uploads/u1"]⟩ :
      ChapterDetailsRec).pages ≠ [] :=
  c1_chapter_pages_amended.1 (jstr "m") (jstr "c") ⟨[⟨[], jstr "u1"⟩], [], []⟩
    ⟨jstr "m", jstr "c", [jstr "https://cdn.meowing.org/uploads/u1"]⟩ (by decide)

/-- Counterexample to C1 as stated: Mangabuddy's `getChapterDetails` on a
chapter document with no matching image elements and no script-embedded
array returns a successful result whose pages list is empty, instead of
failing. -/
theorem c1_chapter_pages_cex :
    mangabuddyGetChapterDetails (jstr "m") (jstr "7") (jstr "<html></html>") =
      Except.ok ⟨jstr "m", jstr "7", []⟩ := by decide

/-- C5 (amended): every chapter returned by Mangabuddy's `getChapters` has a
strictly positive number — candidates parsing to zero (and unparsable URLs)
are excluded, never defaulted. -/
theorem c5_positive_chapnum_amended :
    ∀ (pa : JStr → Option Int) (now : Int) (lis : List MBChapterLi)
      (c : MBChapter), c ∈ mangabuddyGetChapters pa now lis →
      JNum.lt JNum.zero c.chapNum := by
  intro pa now lis c hc
  unfold mangabuddyGetChapters at hc
  rw [mem_sortDesc] at hc
  unfold mangabuddyExtractChapters at hc
  rw [List.mem_filterMap] at hc
  obtain ⟨li, _, hbuild⟩ := hc
  have hpos := mbBuildChapter_pos pa now li c hbuild
  unfold JNum.lt JNum.zero
  simpa using hpos

/-- Witness for C5: a chapter list with one `/chapter-2` entry yields a
chapter whose number the theorem certifies positive. -/
theorem c5_positive_chapnum_witness :
    JNum.lt JNum.zero (⟨jstr "2", jstr "T", ⟨2, 0⟩, none⟩ : MBChapter).chapNum :=
  c5_positive_chapnum_amended (fun _ => none) 0
    [⟨some (jstr "/m/chapter-2"), jstr "T", []⟩]
    ⟨jstr "2", jstr "T", ⟨2, 0⟩, none⟩ (by decide)

/-- Counterexample to C5 as stated: the part_003 variant's `getChapters`
keeps a chapter whose URL `/chapter-0` parses to the number zero (its only
numeric guard is `isNaN`), so the returned list contains a chapter with
number 0. -/
theorem c5_positive_chapnum_cex :
    (p3GetChapters (fun _ => none)
      [⟨some (jstr "/chapter-0"), jstr "Chapter Zero", []⟩]).map (·.chapNum) =
      [⟨0, 0⟩] := by decide

/-- C10 (confirmed): `saveCloudflareBypassCookies` deletes every cookie in
the store and then stores exactly the supplied cookies that are not yet
expired; a cookie whose expiry is at or before now is never stored. -/
theorem c10_cookie_replacement (now : Int) (store supplied : List Cookie) :
    ((supplied.map (·.name)).Nodup →
      saveCloudflareBypassCookies now store supplied =
        supplied.filter (fun c => !cookieExpired now c))
    ∧ ∀ c ∈ saveCloudflareBypassCookies now store supplied,
        c ∈ supplied ∧ cookieExpired now c = false := by
  have hclear : store.foldl deleteCookie store = [] :=
    foldl_deleteCookie_eq_nil store store (fun x hx => ⟨x, hx, rfl⟩)
  constructor
  · intro hnd
    show supplied.foldl _ (store.foldl deleteCookie store) = _
    rw [hclear]
    rw [foldl_setCookie_eq_filter now supplied [] (by simp) hnd]
    simp
  · intro c hc
    simp only [saveCloudflareBypassCookies] at hc
    rw [hclear] at hc
    exact foldl_setCookie_mem now supplied supplied (fun _ h => h) [] (by simp) c hc

/-- Witness for C10: three supplied cookies, one already expired, replace a
nonempty store with exactly the two unexpired ones. -/
theorem c10_cookie_replacement_witness :
    saveCloudflareBypassCookies 100 [⟨jstr "old", none⟩]
      [⟨jstr "a", some 50⟩, ⟨jstr "b", some 200⟩, ⟨jstr "c", none⟩] =
      [⟨jstr "b", some 200⟩, ⟨jstr "c", none⟩] := by
  have h := (c10_cookie_replacement 100 [⟨jstr "old", none⟩]
    [⟨jstr "a", some 50⟩, ⟨jstr "b", some 200⟩, ⟨jstr "c", none⟩]).1 (by decide)
  rw [h]
  decide

theorem kaynExtract_ids (sectionId : JStr) (ids0 : List JStr) (doc : KaynDoc) :
    (kaynExtract sectionId ids0 doc).1 =
        ids0 ++ (kaynExtract sectionId ids0 doc).2.map (·.mangaId) ∧
      ((kaynExtract sectionId ids0 doc).2.map (·.mangaId)).Nodup ∧
      ∀ i ∈ (kaynExtract sectionId ids0 doc).2, i.mangaId ∉ ids0 := by
  unfold kaynExtract
  refine pushLoop_inv ids0 (kaynDiscoverStep sectionId) kaynAnchorId ?_ doc.anchors
  intro st a
  rcases kaynDiscoverStep_eq sectionId st a with h | ⟨hn, item, hid, _, he⟩
  · exact Or.inl h
  · exact Or.inr ⟨hn, item, hid, he⟩

theorem mbUpdatedItems_ids (ids0 : List JStr) (bookItems : List MBBookItem) :
    (bookItems.foldl mbUpdatedStep (ids0, [])).1 =
        ids0 ++ (bookItems.foldl mbUpdatedStep (ids0, [])).2.map (·.mangaId) ∧
      ((bookItems.foldl mbUpdatedStep (ids0, [])).2.map (·.mangaId)).Nodup ∧
      ∀ i ∈ (bookItems.foldl mbUpdatedStep (ids0, [])).2, i.mangaId ∉ ids0 :=
  pushLoop_inv ids0 mbUpdatedStep mbItemId mbUpdatedStep_eq bookItems

/-- Counterexample to C2 as stated: the Mangabuddy popular section is a
discovery call given a cursor whose fetched document carries a next-page
affordance (one non-active paginator link), yet it returns no cursor. -/
theorem c2_pagination_cursor_cex :
    (mbGetDiscoverSectionItems (jstr "popular_section") (some ⟨some 1, some []⟩)
      (fun _ => ⟨[], [], 1⟩)).metadata = none ∧
    0 < (⟨[], [], 1⟩ : MBDoc).paginatorCount := by decide

/-- C4 (amended): every image URL produced by the Kaynscan extension —
discover items, search results, the manga-detail thumbnail, chapter pages —
goes through `ensureHttps` and never carries the `http://` scheme.
Mangabuddy returns extracted image URLs unchanged (see the
counterexample). -/
theorem c4_https_amended :
    (∀ u : JStr, jsStartsWith (ensureHttps u) (jstr "http://") = false)
    ∧ (∀ (sectionId : JStr) (md : Option PageMeta) (fetch : JStr → KaynDoc),
      ∀ i ∈ (kaynGetDiscoverSectionItems sectionId md fetch).items,
        jsStartsWith i.imageUrl (jstr "http://") = false)
    ∧ (∀ (md : Option SearchMeta) (doc : KaynDoc),
      ∀ s ∈ (kaynGetSearchResults md doc).items,
        jsStartsWith s.imageUrl (jstr "http://") = false)
    ∧ (∀ d : KaynDetailDoc,
      jsStartsWith (kaynMangaThumbnail d) (jstr "http://") = false)
    ∧ (∀ (m c : JStr) (doc : KaynChapterDoc) (r : ChapterDetailsRec),
      kaynGetChapterDetails m c doc = Except.ok r →
      ∀ p ∈ r.pages, jsStartsWith p (jstr "http://") = false) := by
  refine ⟨ensureHttps_no_http, ?_, ?_, ?_, ?_⟩
  · intro sectionId md fetch i hi
    exact kaynExtract_no_http sectionId (metaIds md)
      (fetch (kaynDiscoverUrl sectionId (metaPage md))) i hi
  · intro md doc s hs
    refine foldl_push_inv kaynSearchStep
      (fun s => jsStartsWith s.imageUrl (jstr "http://") = false) ?_
      doc.anchors [] (by simp) s hs
    intro ps a
    rcases kaynSearchStep_eq ps a with h | ⟨si, hurl, he⟩
    · exact Or.inl h
    · refine Or.inr ⟨si, ?_, he⟩
      show jsStartsWith si.imageUrl (jstr "http://") = false
      rw [hurl]
      exact ensureHttps_no_http _
  · intro d
    exact ensureHttps_no_http _
  · intro m c doc r h p hp
    simp only [kaynGetChapterDetails] at h
    split at h
    · exact absurd h (by simp)
    · cases h
      exact kaynChapterPagesList_no_http doc p hp

/-- Witness for C4: a uid-built chapter page URL is certified free of the
insecure scheme. -/
theorem c4_https_witness :
    jsStartsWith (jstr "https://cdn.meowing.org/uploads/u1") (jstr "http://") = false :=
  (c4_https_amended.2.2.2.2 (jstr "m") (jstr "c") ⟨[⟨[], jstr "u1"⟩], [], []⟩
    ⟨jstr "m", jstr "c", [jstr "https://cdn.meowing.org/uploads/u1"]⟩ (by decide))
    (jstr "https://cdn.meowing.org/uploads/u1") (by decide)

/-- Counterexample to C4 as stated: Mangabuddy's search returns the
extracted `data-src` URL unchanged, so an `http://` image URL in the source
markup is returned with the insecure scheme. -/
theorem c4_https_cex :
    ((mbGetSearchResults ⟨none, []⟩ none
      ⟨[⟨jstr "T", some (jstr "http://cdn.example/x.jpg"), none,
        some (jstr "/manga-x"), [], [], none⟩], [], 0⟩).items.map (·.imageUrl)) =
        [jstr "http://cdn.example/x.jpg"] ∧
    jsStartsWith (jstr "http://cdn.example/x.jpg") (jstr "http://") = true := by
  decide

/-- Counterexample to C6 as stated: in Mangabuddy's chapter-list path the
relative date "2 weeks ago" (a unit the claim covers) matches no supported
unit and fails absolute parsing, and the resulting publish date is the
wall-clock now — present in the record, not omitted. -/
theorem c6_dates_cex :
    (mangabuddyGetChapters (fun _ => none) 1000000
      [⟨some (jstr "/m/chapter-5"), jstr "T", jstr "2 weeks ago"⟩]).map (·.publishDate) =
      [some 1000000] := by decide

/-- C7 (amended): fetches in the Mangabuddy extension and the primary
Kaynscan extension translate HTTP 403/503 into the distinguished
`CloudflareError` (other statuses pass the document through; there is no
internal retry, the translation being the immediate result).  The part_003
Kaynscan variant's `fetchCheerio` performs no status check at all. -/
theorem c7_cloudflare_amended (s : Nat) (d : MBDoc) (d2 : KaynDoc) :
    (s = 403 ∨ s = 503 →
      mbFetchCheerio s d = Except.error ⟨mbBase, jstr "GET"⟩ ∧
      kaynFetchCheerio s d2 = Except.error ⟨jstr "https://kaynscan.com", jstr "GET"⟩)
    ∧ (s ≠ 403 → s ≠ 503 →
      mbFetchCheerio s d = Except.ok d ∧ kaynFetchCheerio s d2 = Except.ok d2)
    ∧ p3FetchCheerio s d2 = Except.ok d2 := by
  refine ⟨?_, ?_, rfl⟩
  · intro h
    have hc : s = 503 ∨ s = 403 := h.symm
    constructor
    · unfold mbFetchCheerio; rw [if_pos hc]
    · unfold kaynFetchCheerio; rw [if_pos hc]
  · intro h4 h5
    have hc : ¬ (s = 503 ∨ s = 403) := by tauto
    constructor
    · unfold mbFetchCheerio; rw [if_neg hc]
    · unfold kaynFetchCheerio; rw [if_neg hc]

/-- Witness for C7: a 403 response is translated by both checked fetch
paths. -/
theorem c7_cloudflare_witness :
    mbFetchCheerio 403 (⟨[], [], 0⟩ : MBDoc) = Except.error ⟨mbBase, jstr "GET"⟩ ∧
    kaynFetchCheerio 403 (⟨[], 0⟩ : KaynDoc) =
      Except.error ⟨jstr "https://kaynscan.com", jstr "GET"⟩ :=
  (c7_cloudflare_amended 403 ⟨[], [], 0⟩ ⟨[], 0⟩).1 (Or.inl rfl)

/-- Counterexample to C7 as stated: the part_003 variant's fetch returns the
parsed document unchanged on a 403 status — no bot-challenge error is
raised for that extension's operations. -/
theorem c7_cloudflare_cex :
    p3FetchCheerio 403 (⟨[], 0⟩ : KaynDoc) = Except.ok ⟨[], 0⟩ := rfl

/-- C8 (amended): Mangabuddy's discover returns an empty item list for an
unrecognized section id, independent of any fetched document.  Kaynscan's
discover instead falls back to fetching the base URL and still runs item
extraction over that page. -/
theorem c8_unknown_section_amended :
    (∀ (sectionId : JStr) (md : Option PageMeta) (fetch : JStr → MBDoc),
      sectionId ≠ jstr "popular_section" → sectionId ≠ jstr "updated_section" →
      sectionId ≠ jstr "new_manga_section" →
      mbGetDiscoverSectionItems sectionId md fetch = ⟨[], none⟩)
    ∧ (∀ (sectionId : JStr) (md : Option PageMeta) (fetch : JStr → KaynDoc),
      sectionId ≠ jstr "popular" → sectionId ≠ jstr "latest" →
      kaynDiscoverUrl sectionId (metaPage md) = kaynBase ∧
      (kaynGetDiscoverSectionItems sectionId md fetch).items =
        (kaynExtract sectionId (metaIds md) (fetch kaynBase)).2) := by
  constructor
  · intro sectionId md fetch h1 h2 h3
    unfold mbGetDiscoverSectionItems
    rw [if_neg h1, if_neg h2, if_neg h3]
  · intro sectionId md fetch h1 h2
    have hurl : kaynDiscoverUrl sectionId (metaPage md) = kaynBase := by
      unfold kaynDiscoverUrl
      rw [if_neg h1, if_neg h2]
    refine ⟨hurl, ?_⟩
    have hitems : (kaynGetDiscoverSectionItems sectionId md fetch).items =
        (kaynExtract sectionId (metaIds md)
          (fetch (kaynDiscoverUrl sectionId (metaPage md)))).2 := rfl
    rw [hitems, hurl]

/-- Witness for C8: an unrecognized Mangabuddy section id yields the empty
result even against a populated document. -/
theorem c8_unknown_section_witness :
    mbGetDiscoverSectionItems (jstr "bogus") none (fun _ => ⟨[], [], 5⟩) = ⟨[], none⟩ :=
  c8_unknown_section_amended.1 (jstr "bogus") none (fun _ => ⟨[], [], 5⟩)
    (by decide) (by decide) (by decide)

/-- Counterexample to C8 as stated: Kaynscan's discover with the
unrecognized section id "bogus" fetches the base URL and extracts a
(nonempty) item list from that unrelated page instead of returning an empty
list. -/
theorem c8_unknown_section_cex :
    kaynDiscoverUrl (jstr "bogus") 1 = kaynBase ∧
    (kaynGetDiscoverSectionItems (jstr "bogus") none
      (fun _ => ⟨[⟨jstr "/series/abc123/", jstr "T", [], []⟩], 0⟩)).items ≠ [] := by
  decide

theorem scanFirst_eq_of_some {α : Type _} (f : JStr → Option α) (l : JStr) (a : α)
    (h : f l = some a) : scanFirst f l = some a := by
  cases l with
  | nil => exact h
  | cons c rest =>
    unfold scanFirst
    rw [h]

theorem takeWhile_append_of_all {p : Char → Bool} (d : JStr) (x : Char) (xs : JStr)
    (hd : ∀ c ∈ d, p c = true) (hx : p x = false) :
    (d ++ x :: xs).takeWhile p = d ∧ (d ++ x :: xs).dropWhile p = x :: xs := by
  induction d with
  | nil => simp [List.takeWhile_cons, List.dropWhile_cons, hx]
  | cons c t ih =>
    have hc := hd c (List.mem_cons_self c t)
    have iht := ih (fun c' hc' => hd c' (List.mem_cons_of_mem _ hc'))
    simp only [List.cons_append, List.takeWhile_cons, List.dropWhile_cons, hc]
    simp [iht.1, iht.2]

theorem ws_char_cases {c : Char} (h : c.isWhitespace = true) :
    c = ' ' ∨ c = '\t' ∨ c = '\r' ∨ c = '\n' := by
  simp only [Char.isWhitespace, Bool.or_eq_true, decide_eq_true_eq] at h
  tauto

theorem digit_not_ws {c : Char} (h : c.isDigit = true) : c.isWhitespace = false := by
  by_contra hw
  rw [Bool.not_eq_false] at hw
  rcases ws_char_cases hw with rfl | rfl | rfl | rfl <;> exact absurd h (by decide)

theorem digit_toLower {c : Char} (h : c.isDigit = true) : c.toLower = c := by
  simp only [Char.isDigit, Bool.and_eq_true, decide_eq_true_eq] at h
  have h57 : c.toNat ≤ 57 := h.2
  unfold Char.toLower
  rw [if_neg]
  intro hc
  omega

theorem ws_toLower {c : Char} (h : c.isWhitespace = true) : c.toLower = c := by
  rcases ws_char_cases h with rfl | rfl | rfl | rfl <;> decide

theorem jsTrim_ne_nil {l : JStr} (c : Char) (hc : c ∈ l)
    (hw : c.isWhitespace = false) : jsTrim l ≠ [] := by
  unfold jsTrim
  intro h
  rw [List.reverse_eq_nil_iff, List.dropWhile_eq_nil_iff] at h
  have hcd : c ∈ l.dropWhile Char.isWhitespace := by
    rw [← List.takeWhile_append_dropWhile Char.isWhitespace l] at hc
    rcases List.mem_append.mp hc with h' | h'
    · exact absurd (List.mem_takeWhile_imp h') (by simp [hw])
    · exact h'
  exact absurd (h c (List.mem_reverse.mpr hcd)) (by simp [hw])

theorem digit_head_not_yesterday (c : Char) (r : JStr) (hc : c.isDigit = true) :
    jsToLower (c :: r) ≠ jstr "yesterday" := by
  intro h
  unfold jsToLower at h
  rw [List.map_cons, show jstr "yesterday" = 'y' :: jstr "esterday" from rfl] at h
  injection h with h1 _
  rw [digit_toLower hc] at h1
  subst h1
  exact absurd hc (by decide)

theorem relAtPos_digits (units : List (JStr × Int)) (d : JStr) (c0 : Char)
    (tail : JStr) (hne : d ≠ []) (hdig : ∀ c ∈ d, c.isDigit = true)
    (hc0 : c0.isWhitespace = false) :
    relAtPos units (d ++ ' ' :: c0 :: tail) =
      ((units.filterMap (fun u => relUnitMatch u (c0 :: tail))).head?).map
        (fun ms => (parseNatDigits d, ms)) := by
  have h1 := takeWhile_append_of_all d ' ' (c0 :: tail)
    (fun c hc => hdig c hc) (by decide)
  have hdne : d.isEmpty = false := by
    cases d with
    | nil => exact absurd rfl hne
    | cons _ _ => rfl
  unfold relAtPos pDigits1
  simp only [h1.1, h1.2, hdne, Bool.false_eq_true, if_false]
  unfold pWs1
  simp [List.takeWhile_cons, List.dropWhile_cons, hc0]

theorem relTimeMatch_phrase (units : List (JStr × Int)) (d : JStr) (c0 : Char)
    (tail : JStr) (ms : Int) (hne : d ≠ []) (hdig : ∀ c ∈ d, c.isDigit = true)
    (hc0 : c0.isWhitespace = false)
    (hms : (units.filterMap (fun u => relUnitMatch u (c0 :: tail))).head? = some ms) :
    relTimeMatch units (d ++ ' ' :: c0 :: tail) = some (parseNatDigits d, ms) := by
  unfold relTimeMatch
  apply scanFirst_eq_of_some
  rw [relAtPos_digits units d c0 tail hne hdig hc0, hms]
  rfl

theorem mbNewStep_eq (st : List JStr × List DiscItem) (it : MBBookItem) :
    mbNewStep st it = st ∨
    (mbItemId it ∉ st.1 ∧ ∃ item : DiscItem,
      item.mangaId = mbItemId it ∧
      mbNewStep st it = (st.1 ++ [mbItemId it], st.2 ++ [item])) := by
  simp only [mbNewStep]
  split
  next h => exact Or.inr ⟨h.2.2, _, rfl, rfl⟩
  next => exact Or.inl rfl

theorem mbNewItems_ids (ids0 : List JStr) (bookItems : List MBBookItem) :
    (bookItems.foldl mbNewStep (ids0, [])).1 =
        ids0 ++ (bookItems.foldl mbNewStep (ids0, [])).2.map (·.mangaId) ∧
      ((bookItems.foldl mbNewStep (ids0, [])).2.map (·.mangaId)).Nodup ∧
      ∀ i ∈ (bookItems.foldl mbNewStep (ids0, [])).2, i.mangaId ∉ ids0 :=
  pushLoop_inv ids0 mbNewStep mbItemId mbNewStep_eq bookItems

/-- C2 (amended): for the paginated discovery/search operations — Kaynscan
discover, Mangabuddy updated and new-manga sections, and both searches —
the cursor rule holds: a next-page affordance in the fetched document
yields the cursor `{page+1, seen ids extended by the emitted ids}` (search
cursors carry only the page number), its absence yields no cursor, and a
missing cursor or missing cursor fields are treated as page 1 with an empty
seen set.  The Mangabuddy popular section, however, always returns no
cursor. -/
theorem c2_pagination_cursor_amended :
    (∀ (sectionId : JStr) (md : Option PageMeta) (fetch : JStr → KaynDoc),
      (kaynGetDiscoverSectionItems sectionId md fetch).metadata =
        if 0 < (fetch (kaynDiscoverUrl sectionId (metaPage md))).nextPageCount then
          some ⟨some (metaPage md + 1),
            some (metaIds md ++
              (kaynGetDiscoverSectionItems sectionId md fetch).items.map (·.mangaId))⟩
        else none)
    ∧ (∀ (md : Option PageMeta) (fetch : JStr → MBDoc),
      (mbGetUpdatedSectionItems md fetch).metadata =
        if 0 < (fetch (mbBase ++ jstr "/latest?page=" ++
            renderNat (metaPage md))).paginatorCount then
          some ⟨some (metaPage md + 1),
            some (metaIds md ++
              (mbGetUpdatedSectionItems md fetch).items.map (·.mangaId))⟩
        else none)
    ∧ (∀ (md : Option PageMeta) (fetch : JStr → MBDoc),
      (mbGetNewMangaSectionItems md fetch).metadata =
        if 0 < (fetch (mbBase ++ jstr "/search?status=all&sort=created_at&q=&page=" ++
            renderNat (metaPage md))).paginatorCount then
          some ⟨some (metaPage md + 1),
            some (metaIds md ++
              (mbGetNewMangaSectionItems md fetch).items.map (·.mangaId))⟩
        else none)
    ∧ (∀ (sectionId : JStr) (fetch : JStr → KaynDoc),
      kaynGetDiscoverSectionItems sectionId none fetch =
        kaynGetDiscoverSectionItems sectionId (some ⟨none, none⟩) fetch ∧
      kaynGetDiscoverSectionItems sectionId none fetch =
        kaynGetDiscoverSectionItems sectionId (some ⟨some 1, some []⟩) fetch)
    ∧ (∀ fetch : JStr → MBDoc,
      mbGetUpdatedSectionItems none fetch =
        mbGetUpdatedSectionItems (some ⟨none, none⟩) fetch ∧
      mbGetUpdatedSectionItems none fetch =
        mbGetUpdatedSectionItems (some ⟨some 1, some []⟩) fetch)
    ∧ (∀ fetch : JStr → MBDoc,
      mbGetNewMangaSectionItems none fetch =
        mbGetNewMangaSectionItems (some ⟨none, none⟩) fetch ∧
      mbGetNewMangaSectionItems none fetch =
        mbGetNewMangaSectionItems (some ⟨some 1, some []⟩) fetch)
    ∧ (∀ (q : MBQuery) (md : Option SearchMeta) (doc : MBDoc),
      (mbGetSearchResults q md doc).metadata =
        if 0 < doc.paginatorCount then some ⟨some (searchPage md + 1)⟩ else none)
    ∧ (∀ (md : Option SearchMeta) (doc : KaynDoc),
      (kaynGetSearchResults md doc).metadata =
        if 0 < doc.nextPageCount then some ⟨some (searchPage md + 1)⟩ else none)
    ∧ (∀ (md : Option PageMeta) (fetch : JStr → MBDoc),
      (mbGetPopularSectionItems md fetch).metadata = none) := by
  refine ⟨?_, ?_, ?_, fun _ _ => ⟨rfl, rfl⟩, fun _ => ⟨rfl, rfl⟩, fun _ => ⟨rfl, rfl⟩,
    fun _ _ _ => rfl, fun _ _ => rfl, fun _ _ => rfl⟩
  · intro sectionId md fetch
    have h := (kaynExtract_ids sectionId (metaIds md)
      (fetch (kaynDiscoverUrl sectionId (metaPage md)))).1
    have hmeta : (kaynGetDiscoverSectionItems sectionId md fetch).metadata =
        (if 0 < (fetch (kaynDiscoverUrl sectionId (metaPage md))).nextPageCount then
          some ⟨some (metaPage md + 1),
            some (kaynExtract sectionId (metaIds md)
              (fetch (kaynDiscoverUrl sectionId (metaPage md)))).1⟩
        else none) := rfl
    have hitems : (kaynGetDiscoverSectionItems sectionId md fetch).items =
        (kaynExtract sectionId (metaIds md)
          (fetch (kaynDiscoverUrl sectionId (metaPage md)))).2 := rfl
    rw [hmeta, hitems, h]
  · intro md fetch
    have h := (mbUpdatedItems_ids (metaIds md)
      (fetch (mbBase ++ jstr "/latest?page=" ++ renderNat (metaPage md))).bookItems).1
    have hmeta : (mbGetUpdatedSectionItems md fetch).metadata =
        (if 0 < (fetch (mbBase ++ jstr "/latest?page=" ++
            renderNat (metaPage md))).paginatorCount then
          some ⟨some (metaPage md + 1),
            some ((fetch (mbBase ++ jstr "/latest?page=" ++
              renderNat (metaPage md))).bookItems.foldl mbUpdatedStep (metaIds md, [])).1⟩
        else none) := rfl
    have hitems : (mbGetUpdatedSectionItems md fetch).items =
        ((fetch (mbBase ++ jstr "/latest?page=" ++
          renderNat (metaPage md))).bookItems.foldl mbUpdatedStep (metaIds md, [])).2 := rfl
    rw [hmeta, hitems, h]
  · intro md fetch
    have h := (mbNewItems_ids (metaIds md)
      (fetch (mbBase ++ jstr "/search?status=all&sort=created_at&q=&page=" ++
        renderNat (metaPage md))).bookItems).1
    have hmeta : (mbGetNewMangaSectionItems md fetch).metadata =
        (if 0 < (fetch (mbBase ++ jstr "/search?status=all&sort=created_at&q=&page=" ++
            renderNat (metaPage md))).paginatorCount then
          some ⟨some (metaPage md + 1),
            some ((fetch (mbBase ++ jstr "/search?status=all&sort=created_at&q=&page=" ++
              renderNat (metaPage md))).bookItems.foldl mbNewStep (metaIds md, [])).1⟩
        else none) := rfl
    have hitems : (mbGetNewMangaSectionItems md fetch).items =
        ((fetch (mbBase ++ jstr "/search?status=all&sort=created_at&q=&page=" ++
          renderNat (metaPage md))).bookItems.foldl mbNewStep (metaIds md, [])).2 := rfl
    rw [hmeta, hitems, h]

/-- C3 (amended): every seen-set-guarded listing operation — Kaynscan
discover and the Mangabuddy updated and new-manga sections — returns no
duplicate ids within one page and never emits an id already in the cursor's
seen set.  The two search operations and the Mangabuddy popular section
carry no seen set and are not deduplicated (see the counterexample). -/
theorem c3_dedup_amended :
    (∀ (sectionId : JStr) (md : Option PageMeta) (fetch : JStr → KaynDoc),
      ((kaynGetDiscoverSectionItems sectionId md fetch).items.map (·.mangaId)).Nodup ∧
      ∀ i ∈ (kaynGetDiscoverSectionItems sectionId md fetch).items,
        i.mangaId ∉ metaIds md)
    ∧ (∀ (md : Option PageMeta) (fetch : JStr → MBDoc),
      ((mbGetUpdatedSectionItems md fetch).items.map (·.mangaId)).Nodup ∧
      ∀ i ∈ (mbGetUpdatedSectionItems md fetch).items, i.mangaId ∉ metaIds md)
    ∧ (∀ (md : Option PageMeta) (fetch : JStr → MBDoc),
      ((mbGetNewMangaSectionItems md fetch).items.map (·.mangaId)).Nodup ∧
      ∀ i ∈ (mbGetNewMangaSectionItems md fetch).items, i.mangaId ∉ metaIds md) := by
  refine ⟨?_, ?_, ?_⟩
  · intro sectionId md fetch
    exact ⟨(kaynExtract_ids sectionId (metaIds md)
        (fetch (kaynDiscoverUrl sectionId (metaPage md)))).2.1,
      (kaynExtract_ids sectionId (metaIds md)
        (fetch (kaynDiscoverUrl sectionId (metaPage md)))).2.2⟩
  · intro md fetch
    exact ⟨(mbUpdatedItems_ids (metaIds md)
        (fetch (mbBase ++ jstr "/latest?page=" ++ renderNat (metaPage md))).bookItems).2.1,
      (mbUpdatedItems_ids (metaIds md)
        (fetch (mbBase ++ jstr "/latest?page=" ++ renderNat (metaPage md))).bookItems).2.2⟩
  · intro md fetch
    exact ⟨(mbNewItems_ids (metaIds md)
        (fetch (mbBase ++ jstr "/search?status=all&sort=created_at&q=&page=" ++
          renderNat (metaPage md))).bookItems).2.1,
      (mbNewItems_ids (metaIds md)
        (fetch (mbBase ++ jstr "/search?status=all&sort=created_at&q=&page=" ++
          renderNat (metaPage md))).bookItems).2.2⟩
/-- Witness for C3: a one-anchor Kaynscan discover page emits an item whose
id the theorem certifies absent from the (empty) seen set. -/
theorem c3_dedup_witness :
    (⟨jstr "chapterUpdatesCarouselItem", jstr "abc123", jstr "https://kaynscan.com",
      jstr "T", none, none, some (jstr "1")⟩ : DiscItem).mangaId ∉ metaIds none :=
  (c3_dedup_amended.1 (jstr "latest") none
    (fun _ => ⟨[⟨jstr "/series/abc123/", jstr "T", [], []⟩], 0⟩)).2
    ⟨jstr "chapterUpdatesCarouselItem", jstr "abc123", jstr "https://kaynscan.com",
      jstr "T", none, none, some (jstr "1")⟩ (by decide)

/-- Counterexample to C3 as stated: neither Kaynscan's `getSearchResults`
nor Mangabuddy's popular section has a seen-set, so a document whose markup
repeats the same detail anchor (or top item) yields a result list with a
duplicated id. -/
theorem c3_dedup_cex :
    ((kaynGetSearchResults none
      ⟨[⟨jstr "/series/abc123/", jstr "T", [], []⟩,
        ⟨jstr "/series/abc123/", jstr "T", [], []⟩], 0⟩).items.map (·.mangaId)) =
        [jstr "abc123", jstr "abc123"] ∧
    ¬ ((kaynGetSearchResults none
      ⟨[⟨jstr "/series/abc123/", jstr "T", [], []⟩,
        ⟨jstr "/series/abc123/", jstr "T", [], []⟩], 0⟩).items.map (·.mangaId)).Nodup ∧
    ((mbGetPopularSectionItems none
      (fun _ => ⟨[], [⟨jstr "T", none, none, some (jstr "/manga-x"), []⟩,
        ⟨jstr "T", none, none, some (jstr "/manga-x"), []⟩], 0⟩)).items.map (·.mangaId)) =
        [jstr "manga-x", jstr "manga-x"] ∧
    ¬ ((mbGetPopularSectionItems none
      (fun _ => ⟨[], [⟨jstr "T", none, none, some (jstr "/manga-x"), []⟩,
        ⟨jstr "T", none, none, some (jstr "/manga-x"), []⟩], 0⟩)).items.map (·.mangaId)).Nodup := by
  decide

/-- C6 (amended): Kaynscan's chapter-list path converts "(n) (unit) ago" for
every unit second through year (universally over the count digits), follows
the relative match wherever one exists, and omits the publish date for every
text with no relative match — it has no absolute-date fallback.
Mangabuddy's chapter-list path (`convertToISO8601`) converts every
"(n) (unit) ago" phrase for its units second through day, handles any casing
of "yesterday", follows the relative match wherever one exists, and for
every other text falls back to absolute-date parsing — defaulting to now,
not omitting, whenever that also fails. -/
theorem c6_dates_amended :
    (∀ (now : Int) (d : JStr), d ≠ [] → (∀ c ∈ d, c.isDigit = true) →
      ∀ u ∈ kaynRelUnits,
        kaynParseRelDate now (d ++ ' ' :: (u.1 ++ jstr "s ago")) =
          some (now - (parseNatDigits d : Int) * u.2))
    ∧ (∀ (now : Int) (text : JStr) (v : Nat) (ms : Int),
        relTimeMatch kaynRelUnits text = some (v, ms) →
        kaynParseRelDate now text = some (now - (v : Int) * ms))
    ∧ (∀ (now : Int) (text : JStr),
        relTimeMatch kaynRelUnits text = none → kaynParseRelDate now text = none)
    ∧ (∀ (now : Int) (pa : JStr → Option Int) (d : JStr), d ≠ [] →
        (∀ c ∈ d, c.isDigit = true) → ∀ u ∈ mbRelUnits,
        convertToISO8601 pa now (d ++ ' ' :: (u.1 ++ jstr "s ago")) =
          now - (parseNatDigits d : Int) * u.2)
    ∧ (∀ (now : Int) (pa : JStr → Option Int) (text : JStr),
        jsToLower text = jstr "yesterday" →
        convertToISO8601 pa now text = now - 86400000)
    ∧ (∀ (now : Int) (pa : JStr → Option Int) (text : JStr) (v : Nat) (ms : Int),
        jsTrim text ≠ [] → jsToLower text ≠ jstr "yesterday" →
        relTimeMatch mbRelUnits text = some (v, ms) →
        convertToISO8601 pa now text = now - (v : Int) * ms)
    ∧ (∀ (now t : Int) (pa : JStr → Option Int) (text : JStr),
        jsTrim text ≠ [] → jsToLower text ≠ jstr "yesterday" →
        relTimeMatch mbRelUnits text = none → pa text = some t →
        convertToISO8601 pa now text = t)
    ∧ (∀ (now : Int) (pa : JStr → Option Int) (text : JStr),
        jsTrim text ≠ [] → jsToLower text ≠ jstr "yesterday" →
        relTimeMatch mbRelUnits text = none → pa text = none →
        convertToISO8601 pa now text = now) := by
  refine ⟨?_, ?_, ?_, ?_, ?_, ?_, ?_, ?_⟩
  · intro now d hne hdig u hu
    have key : ∀ (c0 : Char) (tail : JStr) (ms : Int), c0.isWhitespace = false →
        (kaynRelUnits.filterMap (fun u' => relUnitMatch u' (c0 :: tail))).head? =
          some ms →
        kaynParseRelDate now (d ++ ' ' :: c0 :: tail) =
          some (now - (parseNatDigits d : Int) * ms) := by
      intro c0 tail ms hc0 hms
      unfold kaynParseRelDate
      rw [if_neg (fun hcontra => hne (List.append_eq_nil.mp hcontra).1)]
      rw [relTimeMatch_phrase kaynRelUnits d c0 tail ms hne hdig hc0 hms]
    simp only [kaynRelUnits, List.mem_cons, List.not_mem_nil, or_false] at hu
    rcases hu with rfl | rfl | rfl | rfl | rfl | rfl | rfl
    · exact key 's' (jstr "econds ago") 1000 (by decide) (by decide)
    · exact key 'm' (jstr "inutes ago") 60000 (by decide) (by decide)
    · exact key 'h' (jstr "ours ago") 3600000 (by decide) (by decide)
    · exact key 'd' (jstr "ays ago") 86400000 (by decide) (by decide)
    · exact key 'w' (jstr "eeks ago") 604800000 (by decide) (by decide)
    · exact key 'm' (jstr "onths ago") 2592000000 (by decide) (by decide)
    · exact key 'y' (jstr "ears ago") 31536000000 (by decide) (by decide)
  · intro now text v ms hmatch
    unfold kaynParseRelDate
    split
    next h =>
      rw [h, show relTimeMatch kaynRelUnits ([] : JStr) = none from rfl] at hmatch
      exact Option.noConfusion hmatch
    next h => rw [hmatch]
  · intro now text hmatch
    unfold kaynParseRelDate
    split
    next h => rfl
    next h => rw [hmatch]
  · intro now pa d hne hdig u hu
    have key : ∀ (c0 : Char) (tail : JStr) (ms : Int), c0.isWhitespace = false →
        (mbRelUnits.filterMap (fun u' => relUnitMatch u' (c0 :: tail))).head? =
          some ms →
        convertToISO8601 pa now (d ++ ' ' :: c0 :: tail) =
          now - (parseNatDigits d : Int) * ms := by
      intro c0 tail ms hc0 hms
      obtain ⟨ch, d', rfl⟩ : ∃ ch d', d = ch :: d' := by
        cases d with
        | nil => exact absurd rfl hne
        | cons a b => exact ⟨a, b, rfl⟩
      have hchd : ch.isDigit = true := hdig ch (List.mem_cons_self _ _)
      have htrim : jsTrim ((ch :: d') ++ ' ' :: c0 :: tail) ≠ [] :=
        jsTrim_ne_nil ch (List.mem_cons_self _ _) (digit_not_ws hchd)
      have hyest : jsToLower ((ch :: d') ++ ' ' :: c0 :: tail) ≠ jstr "yesterday" :=
        digit_head_not_yesterday ch (d' ++ ' ' :: c0 :: tail) hchd
      unfold convertToISO8601
      rw [if_neg htrim, if_neg hyest]
      rw [relTimeMatch_phrase mbRelUnits (ch :: d') c0 tail ms (by simp) hdig hc0 hms]
    simp only [mbRelUnits, List.mem_cons, List.not_mem_nil, or_false] at hu
    rcases hu with rfl | rfl | rfl | rfl
    · exact key 's' (jstr "econds ago") 1000 (by decide) (by decide)
    · exact key 'm' (jstr "inutes ago") 60000 (by decide) (by decide)
    · exact key 'h' (jstr "ours ago") 3600000 (by decide) (by decide)
    · exact key 'd' (jstr "ays ago") 86400000 (by decide) (by decide)
  · intro now pa text heq
    have hne : text ≠ [] := by
      intro h
      rw [h] at heq
      exact absurd heq (by decide)
    have hws : ∀ c ∈ text, c.isWhitespace = false := by
      intro c hc
      by_contra hb
      rw [Bool.not_eq_false] at hb
      have hmem : c.toLower ∈ jstr "yesterday" := by
        rw [← heq]
        exact List.mem_map_of_mem _ hc
      rw [ws_toLower hb] at hmem
      rcases ws_char_cases hb with rfl | rfl | rfl | rfl <;>
        exact absurd hmem (by decide)
    obtain ⟨c0, rest, rfl⟩ : ∃ c0 rest, text = c0 :: rest := by
      cases text with
      | nil => exact absurd rfl hne
      | cons a b => exact ⟨a, b, rfl⟩
    have htrim : jsTrim (c0 :: rest) ≠ [] := jsTrim_ne_nil c0
      (List.mem_cons_self _ _) (hws c0 (List.mem_cons_self _ _))
    unfold convertToISO8601
    rw [if_neg htrim, if_pos heq]
  · intro now pa text v ms htrim hyest hmatch
    unfold convertToISO8601
    rw [if_neg htrim, if_neg hyest, hmatch]
  · intro now t pa text htrim hyest hmatch hpa
    unfold convertToISO8601
    rw [if_neg htrim, if_neg hyest, hmatch, hpa]
  · intro now pa text htrim hyest hmatch hpa
    unfold convertToISO8601
    rw [if_neg htrim, if_neg hyest, hmatch, hpa]

/-- Witness for C6: the theorem applied at a concrete clock, unit phrases,
and absolute-date parsers, with all hypotheses discharged concretely. -/
theorem c6_dates_witness :
    kaynParseRelDate 0 (jstr "3" ++ ' ' :: (jstr "week" ++ jstr "s ago")) =
      some (0 - 3 * 604800000)
    ∧ convertToISO8601 (fun _ => none) 0 (jstr "2" ++ ' ' :: (jstr "hour" ++ jstr "s ago")) =
      0 - 2 * 3600000
    ∧ convertToISO8601 (fun _ => none) 5 (jstr "Yesterday") = 5 - 86400000
    ∧ convertToISO8601 (fun s => if s == jstr "May 5, 2024" then some 777 else none) 0
        (jstr "May 5, 2024") = 777
    ∧ convertToISO8601 (fun _ => none) 9 (jstr "soon") = 9 := by
  obtain ⟨h1, _, _, h4, h5, _, h7, h8⟩ := c6_dates_amended
  refine ⟨?_, ?_, ?_, ?_, ?_⟩
  · exact h1 0 (jstr "3") (by decide) (by decide) (jstr "week", 604800000) (by decide)
  · exact h4 0 (fun _ => none) (jstr "2") (by decide) (by decide)
      (jstr "hour", 3600000) (by decide)
  · exact h5 5 (fun _ => none) (jstr "Yesterday") (by decide)
  · exact h7 0 777 (fun s => if s == jstr "May 5, 2024" then some 777 else none)
      (jstr "May 5, 2024") (by decide) (by decide) (by decide) (by decide)
  · exact h8 9 (fun _ => none) (jstr "soon") (by decide) (by decide) (by decide)
      (by decide)

/-- C9 (confirmed): each of the three chapter-list pipelines — the primary
Kaynscan `getChapters`, Mangabuddy's, and the part_003 variant's — returns
chapters sorted descending by number, and each sort is stable (chapters of
equal number keep their extraction order, stated as filter-invariance
against the pre-sort document-order list); and the spec's example
`{3, 1.5, 3, 2}` sorts to `[3, 3, 2, 1.5]` with the two 3s in original
order. -/
theorem c9_chapter_sort :
    (∀ (now : Int) (anchors : List KaynChapterAnchor),
      (kaynGetChapters now anchors).Pairwise
        (fun a b => JNum.le b.chapNum a.chapNum))
    ∧ (∀ (now : Int) (anchors : List KaynChapterAnchor) (x : JNum),
      (kaynGetChapters now anchors).filter (fun c => decide (c.chapNum = x)) =
        (kaynExtractChapters now anchors).filter (fun c => decide (c.chapNum = x)))
    ∧ (∀ (pa : JStr → Option Int) (now : Int) (lis : List MBChapterLi),
      (mangabuddyGetChapters pa now lis).Pairwise
        (fun a b => JNum.le b.chapNum a.chapNum))
    ∧ (∀ (pa : JStr → Option Int) (now : Int) (lis : List MBChapterLi) (x : JNum),
      (mangabuddyGetChapters pa now lis).filter (fun c => decide (c.chapNum = x)) =
        (mangabuddyExtractChapters pa now lis).filter (fun c => decide (c.chapNum = x)))
    ∧ (∀ (pa : JStr → Option Int) (items : List P3ChapterItem),
      (p3GetChapters pa items).Pairwise (fun a b => JNum.le b.chapNum a.chapNum))
    ∧ (∀ (pa : JStr → Option Int) (items : List P3ChapterItem) (x : JNum),
      (p3GetChapters pa items).filter (fun c => decide (c.chapNum = x)) =
        (p3ExtractChapters pa items).filter (fun c => decide (c.chapNum = x)))
    ∧ (sortDesc (fun c : MBChapter => c.chapNum)
        [⟨jstr "a", [], ⟨3, 0⟩, none⟩, ⟨jstr "b", [], ⟨15, 1⟩, none⟩,
         ⟨jstr "c", [], ⟨3, 0⟩, none⟩, ⟨jstr "d", [], ⟨2, 0⟩, none⟩]).map (·.chapterId) =
        [jstr "a", jstr "c", jstr "d", jstr "b"] := by
  refine ⟨?_, ?_, ?_, ?_, ?_, ?_, by decide⟩
  · intro now anchors
    exact pairwise_sortDesc _ _
  · intro now anchors x
    exact filter_sortDesc _ _ _
  · intro pa now lis
    exact pairwise_sortDesc _ _
  · intro pa now lis x
    exact filter_sortDesc _ _ _
  · intro pa items
    exact pairwise_sortDesc _ _
  · intro pa items x
    exact filter_sortDesc _ _ _
